import Mathlib

/-!
# kms-core: `KmsBaseMixer` (src/kmsbasemixer.c)

A shallow embedding of the port registry and of the dynamic linking protocol of
`kmsbasemixer.c`, followed by the properties of the specification checked
against it.

## Modelling conventions

* The mixer instance (`KmsBaseMixerPrivate` plus the pads the mixer element
  exposes) is a value of `KmsBaseMixer`; every C function that mutates it is a
  Lean function returning the new value next to its C return value.
* `ports` (a `GHashTable` keyed by `gint`) is an association list with unique
  keys, kept in insertion order.
* `port_count` is a C `gint`: the post-increment is taken modulo `2^32` in
  two's complement (`wrap_gint`).
* GStreamer is an external collaborator, modelled after its library source as
  far as the results that `kmsbasemixer.c` reads go: a pad lookup by name may
  return `NULL`; `gst_ghost_pad_new_from_template` returns `NULL` for a `NULL`
  target, for a target that is linked already and for a target whose direction
  is not that of the template; `gst_element_add_pad` rejects `NULL` and a name
  that the element already uses; `gst_ghost_pad_set_target` unlinks the old
  target and fails, leaving the ghost pad without target, when the new target
  has the wrong direction or is linked already.  Caps are taken to be
  compatible.  `gst_pad_link`, whose result the source ignores, records the pad
  handed to it as peer.
* Every section of code under `KMS_BASE_MIXER_LOCK` runs atomically.  The
  functions are modelled as sequential code; `kms_base_mixer_handle_port`, which
  takes the lock twice, is in addition modelled as two atomic sections that
  interleave with those of other threads (`attach_section`).
-/

namespace Kms

/-- Identity of a `GstObject` (elements and bins). -/
abbrev GstObject := Nat

/-- Model of `GstPadDirection`. -/
inductive GstPadDirection where
  | GST_PAD_UNKNOWN
  | GST_PAD_SRC
  | GST_PAD_SINK
  deriving DecidableEq, Repr

/-- A pad of an element other than the mixer: its name, its direction and the
element that owns it. -/
structure GstPad where
  name : String
  direction : GstPadDirection
  parent : GstObject
  deriving DecidableEq, Repr

/-- A ghost pad on the mixer: its name, the name of the pad template it was
created from, its target and the pad linked to it by `gst_pad_link`. -/
structure GstGhostPad where
  name : String
  templ : String
  target : Option GstPad
  peer : Option GstPad
  deriving DecidableEq, Repr

/-- Model of `struct _KmsBaseMixerPortData` (lines 98-105); the back pointer `mixer` is
implicit. -/
structure KmsBaseMixerPortData where
  port : GstObject
  id : Int
  audio_sink_target : Option GstPad
  video_sink_target : Option GstPad
  deriving DecidableEq, Repr

/-- The mixer instance: `struct _KmsBaseMixerPrivate` (lines 89-94) without the
mutex, the ghost pads of the mixer element, and `world`, the pads that the other
elements of the pipeline currently expose. -/
structure KmsBaseMixer where
  ports : List (Int × KmsBaseMixerPortData)
  port_count : Int
  pads : List GstGhostPad
  world : List GstPad
  deriving DecidableEq, Repr

/-- What the surrounding pipeline fixes: the mixer object, the parent of every
object, the `KMS_IS_MIXER_END_POINT` type check, the `request_new_pad`
implementation of the elements (given the pads the pipeline exposes so far), the
pads that the rest of the pipeline has linked, and the two pad names of
`kmsmixerendpoint.h`, a header that is not part of the sources at hand. -/
structure Env where
  mixer : GstObject
  parent : GstObject → Option GstObject
  is_mixer_end_point : GstObject → Bool
  request_new_pad : GstObject → String → List GstPad → Option GstPad
  linked : GstPad → Bool
  MIXER_AUDIO_SRC_PAD : String
  MIXER_VIDEO_SRC_PAD : String

/-- Model of `offsetof (KmsBaseMixerPortData, …)` of the two target fields, the values
passed as `target_offset`. -/
inductive TargetOffset where
  | audio_sink_target
  | video_sink_target
  deriving DecidableEq, Repr

/-! The pad name macros of lines 43-50. -/

def AUDIO_SINK_PAD_PREFIX : String := "audio_sink_"
def VIDEO_SINK_PAD_PREFIX : String := "video_sink_"
def AUDIO_SRC_PAD_PREFIX : String := "audio_src_"
def VIDEO_SRC_PAD_PREFIX : String := "video_src_"
def AUDIO_SINK_PAD_NAME : String := "audio_sink_%u"
def VIDEO_SINK_PAD_NAME : String := "video_sink_%u"
def AUDIO_SRC_PAD_NAME : String := "audio_src_%u"
def VIDEO_SRC_PAD_NAME : String := "video_src_%u"

/-- Model of `g_strdup_printf (p "%d", id)`. -/
def g_strdup_printf (p : String) (id : Int) : String := p ++ toString id

/-- Model of `g_str_has_prefix (s, p)`. -/
def g_str_has_prefix (s p : String) : Bool := p.data.isPrefixOf s.data

/-- Substring search on character lists. -/
def strstr : List Char → List Char → Bool
  | [], needle => needle.isPrefixOf []
  | c :: cs, needle => needle.isPrefixOf (c :: cs) || strstr cs needle

/-- Model of `g_strstr_len (s, -1, needle) != NULL`. -/
def g_strstr_len (s needle : String) : Bool := strstr s.data needle.data

/-- Value of a `gint` (32 bits, two's complement) after the arithmetic result `x`
is stored into it: the increment of `G_MAXINT` wraps to `G_MININT`. -/
def wrap_gint (x : Int) : Int := (x + 2147483648) % 4294967296 - 2147483648

/-! ### The GStreamer calls the mixer makes -/

/-- Model of `gst_element_get_static_pad` on an element other than the mixer. -/
def gst_element_get_static_pad (world : List GstPad) (element : GstObject) (name : String) :
    Option GstPad :=
  world.find? (fun p => decide (p.parent = element ∧ p.name = name))

/-- Model of `gst_element_get_static_pad (GST_ELEMENT (mixer), name)`. -/
def mixer_get_static_pad : List GstGhostPad → String → Option GstGhostPad
  | [], _ => none
  | g :: gs, name => if g.name = name then some g else mixer_get_static_pad gs name

/-- Model of `gst_element_class_get_pad_template` on the class of the mixer: the
direction of the template of the given name among the four static templates of
lines 52-78, which lines 545-552 register; `NULL` for every other name. -/
def gst_element_class_get_pad_template (name : String) : Option GstPadDirection :=
  if name = AUDIO_SINK_PAD_NAME ∨ name = VIDEO_SINK_PAD_NAME then
    some GstPadDirection.GST_PAD_SINK
  else if name = AUDIO_SRC_PAD_NAME ∨ name = VIDEO_SRC_PAD_NAME then
    some GstPadDirection.GST_PAD_SRC
  else none

/-- Model of `gst_pad_is_linked (pad)` for a pad of an element other than the
mixer: the rest of the pipeline has linked it, or it is the target of a ghost
pad of the mixer and so linked to the internal pad of that ghost pad. -/
def gst_pad_is_linked (env : Env) (pads : List GstGhostPad) (pad : GstPad) : Bool :=
  env.linked pad || pads.any (fun g => decide (g.target = some pad))

/-- Model of `gst_ghost_pad_new_from_template (name, target, templ)`, `templ` being the
template of the given name: `NULL` without a target, for a linked target, without
a template, and for a target whose direction is not that of the template. -/
def gst_ghost_pad_new_from_template (env : Env) (pads : List GstGhostPad) (name : String)
    (target : Option GstPad) (templ : String) : Option GstGhostPad :=
  match target with
  | none => none
  | some t =>
    if gst_pad_is_linked env pads t = true then none
    else if gst_element_class_get_pad_template templ ≠ some t.direction then none
    else some { name := name, templ := templ, target := some t, peer := none }

/-- Model of `gst_element_add_pad (GST_ELEMENT (mixer), gp)`: fails on `NULL` and on a
name already in use. -/
def gst_element_add_pad (pads : List GstGhostPad) (gp : Option GstGhostPad) :
    Bool × List GstGhostPad :=
  match gp with
  | none => (false, pads)
  | some g =>
    match mixer_get_static_pad pads g.name with
    | some _ => (false, pads)
    | none => (true, pads ++ [g])

/-- The first ghost pad of the given name gets the given target. -/
def put_target : List GstGhostPad → String → GstPad → List GstGhostPad
  | [], _, _ => []
  | g :: gs, name, target =>
    if g.name = name then { g with target := some target } :: gs
    else g :: put_target gs name target

/-- The first ghost pad of the given name loses its target. -/
def clear_target : List GstGhostPad → String → List GstGhostPad
  | [], _ => []
  | g :: gs, name =>
    if g.name = name then { g with target := none } :: gs
    else g :: clear_target gs name

/-- Model of `gst_ghost_pad_set_target (gp, target)` for the ghost pad `gp` that the
lookup of `name` returned (the first of that name).  The old target is unlinked
first; the internal pad is then linked to the new target, which fails, with the
ghost pad left without target, when the direction of the new target is not that
of the ghost pad or the new target is linked already. -/
def gst_ghost_pad_set_target (env : Env) (pads : List GstGhostPad) (name : String)
    (target : GstPad) : Bool × List GstGhostPad :=
  match mixer_get_static_pad pads name with
  | none => (false, pads)
  | some gp =>
    if gst_element_class_get_pad_template gp.templ = some target.direction ∧
        gst_pad_is_linked env (clear_target pads name) target = false then
      (true, put_target pads name target)
    else (false, clear_target pads name)

/-- Model of `gst_pad_link (src_pad, gp)` for the ghost pad `gp` of the given name:
the source ignores the result, and the model records `src_pad` as the pad the
ghost pad was linked from. -/
def gst_pad_link : List GstGhostPad → GstPad → String → List GstGhostPad
  | [], _, _ => []
  | g :: gs, src_pad, name =>
    if g.name = name then { g with peer := some src_pad } :: gs
    else g :: gst_pad_link gs src_pad name

/-- The target resolution of lines 200-203 and 304-307:
`gst_element_get_static_pad`, then `gst_element_get_request_pad`, which adds the
pad it creates to the element. -/
def get_target_pad (env : Env) (world : List GstPad) (internal_element : GstObject)
    (pad_name : String) : Option GstPad × List GstPad :=
  match gst_element_get_static_pad world internal_element pad_name with
  | some t => (some t, world)
  | none =>
    match env.request_new_pad internal_element pad_name world with
    | some t => (some t, world ++ [t])
    | none => (none, world)

/-! ### The hash table of ports -/

/-- Model of `g_hash_table_lookup` with `g_int_equal` keys. -/
def g_hash_table_lookup : List (Int × KmsBaseMixerPortData) → Int → Option KmsBaseMixerPortData
  | [], _ => none
  | (k, v) :: rest, id => if k = id then some v else g_hash_table_lookup rest id

/-- Model of `g_hash_table_remove`. -/
def g_hash_table_remove (ports : List (Int × KmsBaseMixerPortData)) (id : Int) :
    List (Int × KmsBaseMixerPortData) :=
  ports.filter (fun e => decide (e.1 ≠ id))

/-- Model of `g_hash_table_insert`: an entry already stored under the key is replaced. -/
def g_hash_table_insert (ports : List (Int × KmsBaseMixerPortData)) (id : Int)
    (data : KmsBaseMixerPortData) : List (Int × KmsBaseMixerPortData) :=
  g_hash_table_remove ports id ++ [(id, data)]

/-- Model of `*G_STRUCT_MEMBER_P (port_data, target_offset) = target` (lines 323-324). -/
def set_target_member (port_data : KmsBaseMixerPortData) (target_offset : TargetOffset)
    (target : GstPad) : KmsBaseMixerPortData :=
  match target_offset with
  | .audio_sink_target => { port_data with audio_sink_target := some target }
  | .video_sink_target => { port_data with video_sink_target := some target }

/-- The write through the pointer returned by the lookup of `id`: the record
found by the lookup is the one modified. -/
def store_target : List (Int × KmsBaseMixerPortData) → Int → TargetOffset → GstPad →
    List (Int × KmsBaseMixerPortData)
  | [], _, _, _ => []
  | (k, v) :: rest, id, off, target =>
    if k = id then (k, set_target_member v off target) :: rest
    else (k, v) :: store_target rest id off target

/-! ### kmsbasemixer.c -/

/-- Model of `kms_base_mixer_init` (lines 573-583). -/
def kms_base_mixer_init (world : List GstPad) : KmsBaseMixer :=
  { ports := [], port_count := 0, pads := [], world := world }

/-- Model of `kms_base_mixer_port_data_create` (lines 114-125). -/
def kms_base_mixer_port_data_create (port : GstObject) (id : Int) : KmsBaseMixerPortData :=
  { port := port, id := id, audio_sink_target := none, video_sink_target := none }

/-- Model of `kms_base_mixer_link_src_pad` (lines 186-231). -/
def kms_base_mixer_link_src_pad (env : Env) (mixer : KmsBaseMixer) (gp_name template_name : String)
    (internal_element : GstObject) (pad_name : String) : Bool × KmsBaseMixer :=
  if env.parent internal_element ≠ some env.mixer then (false, mixer)
  else
    match get_target_pad env mixer.world internal_element pad_name with
    | (none, _) => (false, mixer)
    | (some target, world) =>
      match mixer_get_static_pad mixer.pads gp_name with
      | none =>
        let gp := gst_ghost_pad_new_from_template env mixer.pads gp_name (some target)
          template_name
        let r := gst_element_add_pad mixer.pads gp
        (r.1, { mixer with pads := r.2, world := world })
      | some _ =>
        let r := gst_ghost_pad_set_target env mixer.pads gp_name target
        (r.1, { mixer with pads := r.2, world := world })

/-- Model of `kms_base_mixer_link_audio_src_default` (lines 233-246). -/
def kms_base_mixer_link_audio_src_default (env : Env) (mixer : KmsBaseMixer) (id : Int)
    (internal_element : GstObject) (pad_name : String) : Bool × KmsBaseMixer :=
  kms_base_mixer_link_src_pad env mixer (g_strdup_printf AUDIO_SRC_PAD_PREFIX id)
    AUDIO_SRC_PAD_NAME internal_element pad_name

/-- Model of `kms_base_mixer_link_video_src_default` (lines 248-261). -/
def kms_base_mixer_link_video_src_default (env : Env) (mixer : KmsBaseMixer) (id : Int)
    (internal_element : GstObject) (pad_name : String) : Bool × KmsBaseMixer :=
  kms_base_mixer_link_src_pad env mixer (g_strdup_printf VIDEO_SRC_PAD_PREFIX id)
    VIDEO_SRC_PAD_NAME internal_element pad_name

/-- Model of `kms_base_mixer_create_and_link_ghost_pad` (lines 263-285), on the pads of
the mixer. -/
def kms_base_mixer_create_and_link_ghost_pad (env : Env) (pads : List GstGhostPad)
    (src_pad : GstPad) (gp_name gp_template_name : String) (target : Option GstPad) :
    Bool × List GstGhostPad :=
  let gp := gst_ghost_pad_new_from_template env pads gp_name target gp_template_name
  let r := gst_element_add_pad pads gp
  if r.1 then (true, gst_pad_link r.2 src_pad gp_name) else (false, r.2)

/-- Model of `kms_base_mixer_link_sink_pad` (lines 287-355). -/
def kms_base_mixer_link_sink_pad (env : Env) (mixer : KmsBaseMixer) (id : Int)
    (gp_name gp_template_name : String) (internal_element : GstObject) (pad_name : String)
    (port_src_pad_name : String) (target_offset : TargetOffset) : Bool × KmsBaseMixer :=
  if env.parent internal_element ≠ some env.mixer then (false, mixer)
  else
    match get_target_pad env mixer.world internal_element pad_name with
    | (none, _) => (false, mixer)
    | (some target, world) =>
      match g_hash_table_lookup mixer.ports id with
      | none => (false, { mixer with world := world })
      | some port_data =>
        let ports := store_target mixer.ports id target_offset target
        match mixer_get_static_pad mixer.pads gp_name with
        | some _ =>
          let r := gst_ghost_pad_set_target env mixer.pads gp_name target
          (r.1, { mixer with ports := ports, pads := r.2, world := world })
        | none =>
          match gst_element_get_static_pad world port_data.port port_src_pad_name with
          | some src_pad =>
            let r := kms_base_mixer_create_and_link_ghost_pad env mixer.pads src_pad gp_name
              gp_template_name (some target)
            (r.1, { mixer with ports := ports, pads := r.2, world := world })
          | none => (true, { mixer with ports := ports, world := world })

/-- Model of `kms_base_mixer_link_video_sink_default` (lines 357-370). -/
def kms_base_mixer_link_video_sink_default (env : Env) (mixer : KmsBaseMixer) (id : Int)
    (internal_element : GstObject) (pad_name : String) : Bool × KmsBaseMixer :=
  kms_base_mixer_link_sink_pad env mixer id (g_strdup_printf VIDEO_SINK_PAD_PREFIX id)
    VIDEO_SINK_PAD_NAME internal_element pad_name env.MIXER_VIDEO_SRC_PAD
    TargetOffset.video_sink_target

/-- Model of `kms_base_mixer_link_audio_sink_default` (lines 372-385). -/
def kms_base_mixer_link_audio_sink_default (env : Env) (mixer : KmsBaseMixer) (id : Int)
    (internal_element : GstObject) (pad_name : String) : Bool × KmsBaseMixer :=
  kms_base_mixer_link_sink_pad env mixer id (g_strdup_printf AUDIO_SINK_PAD_PREFIX id)
    AUDIO_SINK_PAD_NAME internal_element pad_name env.MIXER_AUDIO_SRC_PAD
    TargetOffset.audio_sink_target

/-- Model of `kms_base_mixer_unhandle_port` (lines 387-406). -/
def kms_base_mixer_unhandle_port (mixer : KmsBaseMixer) (id : Int) : KmsBaseMixer :=
  match g_hash_table_lookup mixer.ports id with
  | none => mixer
  | some _ => { mixer with ports := g_hash_table_remove mixer.ports id }

/-- Model of `kms_base_mixer_generate_port_id` (lines 408-419):
`*id = mixer->priv->port_count++`. -/
def kms_base_mixer_generate_port_id (mixer : KmsBaseMixer) : Int × KmsBaseMixer :=
  (mixer.port_count, { mixer with port_count := wrap_gint (mixer.port_count + 1) })

/-- Model of `end_point_pad_added` (lines 421-459), the handler of `pad-added`; the
record `port_data` is the closure argument. -/
def end_point_pad_added (env : Env) (mixer : KmsBaseMixer) (pad : GstPad)
    (port_data : KmsBaseMixerPortData) : KmsBaseMixer :=
  if pad.direction = GstPadDirection.GST_PAD_SRC ∧ g_str_has_prefix pad.name "mixer" = true then
    if port_data.video_sink_target ≠ none ∧ g_strstr_len pad.name "video" = true then
      { mixer with pads := (kms_base_mixer_create_and_link_ghost_pad env mixer.pads pad
          (g_strdup_printf VIDEO_SINK_PAD_PREFIX port_data.id) VIDEO_SINK_PAD_NAME
          port_data.video_sink_target).2 }
    else if port_data.video_sink_target ≠ none ∧ g_strstr_len pad.name "audio" = true then
      { mixer with pads := (kms_base_mixer_create_and_link_ghost_pad env mixer.pads pad
          (g_strdup_printf AUDIO_SINK_PAD_PREFIX port_data.id) AUDIO_SINK_PAD_NAME
          port_data.audio_sink_target).2 }
    else mixer
  else mixer

/-- The two guards of `kms_base_mixer_handle_port` (lines 467-478) pass. -/
def handle_port_accepts (env : Env) (mixer_end_point : GstObject) : Bool :=
  env.is_mixer_end_point mixer_end_point &&
    !(decide (env.parent env.mixer = none) ||
      decide (env.parent env.mixer ≠ env.parent mixer_end_point))

/-- Model of `kms_base_mixer_handle_port` (lines 461-495).  The `pad-added` handler it
connects is dispatched by `pad_added`. -/
def kms_base_mixer_handle_port (env : Env) (mixer : KmsBaseMixer) (mixer_end_point : GstObject) :
    Int × KmsBaseMixer :=
  if !env.is_mixer_end_point mixer_end_point then (-1, mixer)
  else if env.parent env.mixer = none ∨ env.parent env.mixer ≠ env.parent mixer_end_point then
    (-1, mixer)
  else
    let r := kms_base_mixer_generate_port_id mixer
    let port_data := kms_base_mixer_port_data_create mixer_end_point r.1
    (r.1, { r.2 with ports := g_hash_table_insert r.2.ports r.1 port_data })

/-- The element `pad.parent` exposes the new pad `pad`: the pad joins the pads
of the element and `pad-added` runs `end_point_pad_added` once for every record
of the registry whose port is that element, in the order of attachment, each
handler reading its record as stored at that moment.  (The source never
disconnects a handler; a handler whose record was destroyed by a detach is
outside the model.) -/
def pad_added (env : Env) (mixer : KmsBaseMixer) (pad : GstPad) : KmsBaseMixer :=
  let mixer1 := { mixer with world := mixer.world ++ [pad] }
  (mixer1.ports.filter (fun e => decide (e.2.port = pad.parent))).foldl
    (fun m e => end_point_pad_added env m pad e.2) mixer1

/-! ### Sequences of calls -/

/-- A call on the mixer or an event of the pipeline. -/
inductive Call where
  | handle_port (mixer_end_point : GstObject)
  | unhandle_port (id : Int)
  | link_audio_src (id : Int) (internal_element : GstObject) (pad_name : String)
  | link_video_src (id : Int) (internal_element : GstObject) (pad_name : String)
  | link_audio_sink (id : Int) (internal_element : GstObject) (pad_name : String)
  | link_video_sink (id : Int) (internal_element : GstObject) (pad_name : String)
  | pad_added (pad : GstPad)
  deriving DecidableEq, Repr

/-- The mixer after one call. -/
def step (env : Env) (mixer : KmsBaseMixer) : Call → KmsBaseMixer
  | .handle_port e => (kms_base_mixer_handle_port env mixer e).2
  | .unhandle_port id => kms_base_mixer_unhandle_port mixer id
  | .link_audio_src id e p => (kms_base_mixer_link_audio_src_default env mixer id e p).2
  | .link_video_src id e p => (kms_base_mixer_link_video_src_default env mixer id e p).2
  | .link_audio_sink id e p => (kms_base_mixer_link_audio_sink_default env mixer id e p).2
  | .link_video_sink id e p => (kms_base_mixer_link_video_sink_default env mixer id e p).2
  | .pad_added pad => pad_added env mixer pad

/-- The id a call returns: that of a `handle_port` call that passes the guards
of `kms_base_mixer_handle_port`; nothing for every other call. -/
def returned_id (env : Env) (mixer : KmsBaseMixer) : Call → Option Int
  | .handle_port e =>
    if handle_port_accepts env e then some (kms_base_mixer_handle_port env mixer e).1 else none
  | _ => none

/-- The ids returned, in call order, by the successful `handle_port` calls of a
sequence of calls. -/
def handled_ids (env : Env) : KmsBaseMixer → List Call → List Int
  | _, [] => []
  | mixer, c :: cs => (returned_id env mixer c).toList ++ handled_ids env (step env mixer c) cs

/-- Number of ghost pads of the given name on the mixer. -/
def count_pads (pads : List GstGhostPad) (name : String) : Nat :=
  pads.countP (fun g => decide (g.name = name))

/-- The mixer after a sequence of calls. -/
def run (env : Env) (mixer : KmsBaseMixer) (calls : List Call) : KmsBaseMixer :=
  calls.foldl (step env) mixer

/-- No two ghost pads of the mixer have the same name. -/
def pads_unique (pads : List GstGhostPad) : Prop :=
  ∀ name, count_pads pads name ≤ 1

/-- Every key of the registry is the id of the record stored under it. -/
def keys_are_ids (ports : List (Int × KmsBaseMixerPortData)) : Prop :=
  ∀ x ∈ ports, x.2.id = x.1

/-- The stored target selected by `target_offset`. -/
def get_target_member (port_data : KmsBaseMixerPortData) : TargetOffset → Option GstPad
  | .audio_sink_target => port_data.audio_sink_target
  | .video_sink_target => port_data.video_sink_target

/-- The sink link call of the kind selected by `target_offset`. -/
def link_sink_call (target_offset : TargetOffset) (id : Int) (internal_element : GstObject)
    (pad_name : String) : Call :=
  match target_offset with
  | .audio_sink_target => Call.link_audio_sink id internal_element pad_name
  | .video_sink_target => Call.link_video_sink id internal_element pad_name

/-- The default sink link function of the kind selected by `target_offset`. -/
def link_sink_default (env : Env) (mixer : KmsBaseMixer) (target_offset : TargetOffset) (id : Int)
    (internal_element : GstObject) (pad_name : String) : Bool × KmsBaseMixer :=
  match target_offset with
  | .audio_sink_target =>
    kms_base_mixer_link_audio_sink_default env mixer id internal_element pad_name
  | .video_sink_target =>
    kms_base_mixer_link_video_sink_default env mixer id internal_element pad_name

/-! ### Attach calls running as threads

`kms_base_mixer_handle_port` takes the lock of the mixer twice: in
`kms_base_mixer_generate_port_id` (lines 413-416) and around
`g_hash_table_insert` (lines 490-492).  Between the two it reads and writes
nothing of the mixer (the guards above read the hierarchy only;
`kms_base_mixer_port_data_create` and `g_signal_connect` work on the new record
and on the end point).  Threads inside the function therefore interleave at the
grain of these two sections. -/

/-- A thread inside `kms_base_mixer_handle_port`: before its first locked
section, between the two locked sections with the id it generated, and after
its return with the id it returned. -/
inductive AttachThread where
  | start (mixer_end_point : GstObject)
  | has_id (mixer_end_point : GstObject) (id : Int)
  | done (mixer_end_point : GstObject) (id : Int)
  deriving DecidableEq, Repr

/-- The next atomic section of a thread: from `start`, the guards of lines
467-478 and, when they pass, the locked section of
`kms_base_mixer_generate_port_id`; from `has_id`, the creation of the record and
the locked `g_hash_table_insert` (lines 485-492), after which the call returns
the id.  A thread that has returned does nothing. -/
def attach_section (env : Env) (mixer : KmsBaseMixer) :
    AttachThread → KmsBaseMixer × AttachThread
  | .start e =>
    if handle_port_accepts env e then
      ((kms_base_mixer_generate_port_id mixer).2,
        AttachThread.has_id e (kms_base_mixer_generate_port_id mixer).1)
    else (mixer, AttachThread.done e (-1))
  | .has_id e id =>
    ({ mixer with
        ports := g_hash_table_insert mixer.ports id (kms_base_mixer_port_data_create e id) },
      AttachThread.done e id)
  | .done e id => (mixer, AttachThread.done e id)

/-- One step of a schedule: thread `i` runs its next atomic section. -/
def schedule_step (env : Env) (s : KmsBaseMixer × List AttachThread) (i : Nat) :
    KmsBaseMixer × List AttachThread :=
  match s.2[i]? with
  | none => s
  | some t => ((attach_section env s.1 t).1, s.2.set i (attach_section env s.1 t).2)

/-- The mixer and the threads after a schedule, a list of thread numbers. -/
def run_schedule (env : Env) (s : KmsBaseMixer × List AttachThread) (schedule : List Nat) :
    KmsBaseMixer × List AttachThread :=
  schedule.foldl (schedule_step env) s

/-- The id a thread holds, once it has generated one. -/
def thread_id : AttachThread → Option Int
  | .start _ => none
  | .has_id _ id => some id
  | .done _ id => some id

/-- The id a thread has returned. -/
def returned : AttachThread → Option Int
  | .done _ id => some id
  | _ => none

/-- The end point a thread attaches. -/
def thread_end_point : AttachThread → GstObject
  | .start e => e
  | .has_id e _ => e
  | .done e _ => e

/-- How many of its two sections a thread has run. -/
def stage : AttachThread → Nat
  | .start _ => 0
  | .has_id _ _ => 1
  | .done _ _ => 2

/-- The stage of thread `i`; `2` when there is no such thread. -/
def stage_at (threads : List AttachThread) (i : Nat) : Nat :=
  match threads[i]? with
  | some t => stage t
  | none => 2

/-- What holds of the mixer and the threads at every point of a schedule, `c`
being the id counter at the start and `es` the end points of the threads: thread
`i` attaches `es[i]`; the ids generated so far are `c, c + 1, …` without gap or
repetition; the counter stands at the next of them; the record of every thread
that has returned is in the registry under the id returned. -/
def attach_inv (c : Int) (es : List GstObject) (s : KmsBaseMixer × List AttachThread) : Prop :=
  s.2.map thread_end_point = es ∧
  List.Perm (s.2.filterMap thread_id)
    ((List.range (s.2.filterMap thread_id).length).map (fun k : Nat => c + (k : Int))) ∧
  ((s.2.filterMap thread_id).length < es.length →
    s.1.port_count = c + ((s.2.filterMap thread_id).length : Int)) ∧
  ∀ e id, AttachThread.done e id ∈ s.2 →
    g_hash_table_lookup s.1.ports id = some (kms_base_mixer_port_data_create e id)

/-! ### A concrete pipeline

The mixer is object `10` inside the pipeline `100`; object `1` is a mixer end
point next to the mixer, object `2` an element inside the mixer, object `3` an
element outside it. -/

/-- Parents in the concrete pipeline. -/
def parent0 (o : GstObject) : Option GstObject :=
  if o = 10 then some 100 else if o = 1 then some 100 else if o = 2 then some 10 else none

/-- The concrete pipeline, with no request pads. -/
def env0 : Env :=
  { mixer := 10
    parent := parent0
    is_mixer_end_point := fun o => decide (o = 1)
    request_new_pad := fun _ _ _ => none
    linked := fun _ => false
    MIXER_AUDIO_SRC_PAD := "mixer_audio_src"
    MIXER_VIDEO_SRC_PAD := "mixer_video_src" }

/-- Pads of the inner element `2`. -/
def world0 : List GstPad :=
  [{ name := "sink", direction := GstPadDirection.GST_PAD_SINK, parent := 2 },
   { name := "other", direction := GstPadDirection.GST_PAD_SINK, parent := 2 },
   { name := "src", direction := GstPadDirection.GST_PAD_SRC, parent := 2 },
   { name := "src2", direction := GstPadDirection.GST_PAD_SRC, parent := 2 }]

/-- The pad `mixer_audio_src` of the end point `1`. -/
def audio_src_pad0 : GstPad :=
  { name := "mixer_audio_src", direction := GstPadDirection.GST_PAD_SRC, parent := 1 }

/-- The pad `mixer_video_src` of the end point `1`. -/
def video_src_pad0 : GstPad :=
  { name := "mixer_video_src", direction := GstPadDirection.GST_PAD_SRC, parent := 1 }

/-- The mixer of the concrete pipeline after the end point `1` was attached
(as port `0`). -/
def mixer0 : KmsBaseMixer :=
  (kms_base_mixer_handle_port env0 (kms_base_mixer_init world0) 1).2

/-- The pad `sink` of the inner element `2`. -/
def sink_pad0 : GstPad :=
  { name := "sink", direction := GstPadDirection.GST_PAD_SINK, parent := 2 }

/-- The pad `other` of the inner element `2`. -/
def other_pad0 : GstPad :=
  { name := "other", direction := GstPadDirection.GST_PAD_SINK, parent := 2 }

/-- A record of port `0` on which only the audio sink target is set. -/
def audio_only_data : KmsBaseMixerPortData :=
  { port := 1, id := 0, audio_sink_target := some sink_pad0, video_sink_target := none }

/-- A record of port `0` on which both sink targets are set. -/
def audio_video_data : KmsBaseMixerPortData :=
  { port := 1, id := 0, audio_sink_target := some sink_pad0, video_sink_target := some other_pad0 }

/-- The concrete mixer once the end point `1` has exposed `mixer_video_src`. -/
def mixer1 : KmsBaseMixer := pad_added env0 mixer0 video_src_pad0

/-- A short sequence of calls: attach, detach, attach again, and an attach of
an element that is no mixer end point. -/
def calls0 : List Call :=
  [Call.handle_port 1, Call.unhandle_port 0, Call.handle_port 1, Call.handle_port 3]

/-- Two threads that attach the end point `1`. -/
def threads0 : List GstObject := [1, 1]

/-- A schedule of two threads in which the second thread runs both its sections
between the two sections of the first. -/
def schedule0 : List Nat := [0, 1, 1, 0]

/-! ## Lemmas on the registry -/

theorem lookup_remove_self (ports : List (Int × KmsBaseMixerPortData)) (id : Int) :
    g_hash_table_lookup (g_hash_table_remove ports id) id = none := by
  induction ports with
  | nil => rfl
  | cons e rest ih =>
    obtain ⟨k, v⟩ := e
    by_cases h : k = id
    · simpa [g_hash_table_remove, h] using ih
    · have : g_hash_table_remove ((k, v) :: rest) id = (k, v) :: g_hash_table_remove rest id := by
        simp [g_hash_table_remove, h]
      rw [this]
      simp [g_hash_table_lookup, h, ih]

theorem lookup_remove_ne (ports : List (Int × KmsBaseMixerPortData)) (id id2 : Int)
    (hne : id2 ≠ id) :
    g_hash_table_lookup (g_hash_table_remove ports id) id2 = g_hash_table_lookup ports id2 := by
  induction ports with
  | nil => rfl
  | cons e rest ih =>
    obtain ⟨k, v⟩ := e
    by_cases h : k = id
    · have hk : k ≠ id2 := fun h2 => hne (h2 ▸ h)
      have : g_hash_table_remove ((k, v) :: rest) id = g_hash_table_remove rest id := by
        simp [g_hash_table_remove, h]
      rw [this, ih]
      simp [g_hash_table_lookup, hk]
    · have : g_hash_table_remove ((k, v) :: rest) id = (k, v) :: g_hash_table_remove rest id := by
        simp [g_hash_table_remove, h]
      rw [this]
      by_cases h2 : k = id2
      · simp [g_hash_table_lookup, h2]
      · simp [g_hash_table_lookup, h2, ih]

theorem remove_of_lookup_none (ports : List (Int × KmsBaseMixerPortData)) (id : Int)
    (h : g_hash_table_lookup ports id = none) : g_hash_table_remove ports id = ports := by
  induction ports with
  | nil => rfl
  | cons e rest ih =>
    obtain ⟨k, v⟩ := e
    by_cases hk : k = id
    · simp [g_hash_table_lookup, hk] at h
    · simp only [g_hash_table_lookup, hk, if_false] at h
      have : g_hash_table_remove ((k, v) :: rest) id = (k, v) :: g_hash_table_remove rest id := by
        simp [g_hash_table_remove, hk]
      rw [this, ih h]

theorem lookup_append_single (ports : List (Int × KmsBaseMixerPortData)) (k id : Int)
    (v : KmsBaseMixerPortData) :
    g_hash_table_lookup (ports ++ [(k, v)]) id =
      match g_hash_table_lookup ports id with
      | some d => some d
      | none => if k = id then some v else none := by
  induction ports with
  | nil => simp [g_hash_table_lookup]
  | cons e rest ih =>
    obtain ⟨k2, v2⟩ := e
    by_cases h : k2 = id
    · simp [g_hash_table_lookup, h]
    · simp [g_hash_table_lookup, h, ih]

theorem lookup_insert_ne (ports : List (Int × KmsBaseMixerPortData)) (k id : Int)
    (v : KmsBaseMixerPortData) (hne : k ≠ id) :
    g_hash_table_lookup (g_hash_table_insert ports k v) id = g_hash_table_lookup ports id := by
  unfold g_hash_table_insert
  rw [lookup_append_single, lookup_remove_ne ports k id (fun h => hne h.symm)]
  cases g_hash_table_lookup ports id <;> simp [hne]

theorem lookup_store_ne (ports : List (Int × KmsBaseMixerPortData)) (id id2 : Int)
    (off : TargetOffset) (t : GstPad) (hne : id2 ≠ id) :
    g_hash_table_lookup (store_target ports id off t) id2 = g_hash_table_lookup ports id2 := by
  induction ports with
  | nil => rfl
  | cons e rest ih =>
    obtain ⟨k, v⟩ := e
    by_cases h : k = id
    · have hk : k ≠ id2 := fun h2 => hne (h2 ▸ h)
      rw [store_target, if_pos h]
      simp [g_hash_table_lookup, hk]
    · rw [store_target, if_neg h]
      by_cases h2 : k = id2
      · simp [g_hash_table_lookup, h2]
      · simp [g_hash_table_lookup, h2, ih]

theorem lookup_store_self (ports : List (Int × KmsBaseMixerPortData)) (id : Int)
    (off : TargetOffset) (t : GstPad) :
    g_hash_table_lookup (store_target ports id off t) id =
      (g_hash_table_lookup ports id).map (fun d => set_target_member d off t) := by
  induction ports with
  | nil => rfl
  | cons e rest ih =>
    obtain ⟨k, v⟩ := e
    by_cases h : k = id
    · simp [store_target, h, g_hash_table_lookup]
    · simp [store_target, h, g_hash_table_lookup, ih]

/-! ## Lemmas on the pads of the mixer -/

theorem mixer_get_static_pad_none_iff (pads : List GstGhostPad) (name : String) :
    mixer_get_static_pad pads name = none ↔ ∀ g ∈ pads, g.name ≠ name := by
  induction pads with
  | nil => simp [mixer_get_static_pad]
  | cons g gs ih =>
    by_cases h : g.name = name
    · simp [mixer_get_static_pad, h]
    · simp [mixer_get_static_pad, h, ih]

theorem count_pads_eq_zero (pads : List GstGhostPad) (name : String)
    (h : mixer_get_static_pad pads name = none) : count_pads pads name = 0 := by
  rw [mixer_get_static_pad_none_iff] at h
  simp only [count_pads, List.countP_eq_zero, decide_eq_true_eq]
  exact h

theorem count_pads_append_single (pads : List GstGhostPad) (g : GstGhostPad) (name : String) :
    count_pads (pads ++ [g]) name = count_pads pads name + if g.name = name then 1 else 0 := by
  by_cases h : g.name = name <;> simp [count_pads, List.countP_append, List.countP_cons, h]

theorem gst_pad_link_append_new (pads : List GstGhostPad) (g : GstGhostPad) (src_pad : GstPad)
    (h : mixer_get_static_pad pads g.name = none) :
    gst_pad_link (pads ++ [g]) src_pad g.name = pads ++ [{ g with peer := some src_pad }] := by
  induction pads with
  | nil => simp [gst_pad_link]
  | cons g2 gs ih =>
    by_cases h2 : g2.name = g.name
    · simp [mixer_get_static_pad, h2] at h
    · simp only [mixer_get_static_pad, h2, if_false] at h
      simp [gst_pad_link, h2, ih h]

theorem put_target_count (pads : List GstGhostPad) (name name2 : String) (t : GstPad) :
    count_pads (put_target pads name t) name2 = count_pads pads name2 := by
  induction pads with
  | nil => rfl
  | cons g gs ih =>
    by_cases h : g.name = name
    · simp [put_target, h, count_pads, List.countP_cons]
    · simp only [put_target, h, if_false]
      simp only [count_pads, List.countP_cons] at ih ⊢
      rw [ih]

theorem clear_target_count (pads : List GstGhostPad) (name name2 : String) :
    count_pads (clear_target pads name) name2 = count_pads pads name2 := by
  induction pads with
  | nil => rfl
  | cons g gs ih =>
    by_cases h : g.name = name
    · simp [clear_target, h, count_pads, List.countP_cons]
    · simp only [clear_target, h, if_false]
      simp only [count_pads, List.countP_cons] at ih ⊢
      rw [ih]

/-- A target that is an unlinked pad of the direction of the template, under a
free name, is created and linked. -/
theorem create_and_link_ok (env : Env) (pads : List GstGhostPad) (src_pad : GstPad)
    (gp_name templ : String) (t : GstPad)
    (hl : gst_pad_is_linked env pads t = false)
    (hd : gst_element_class_get_pad_template templ = some t.direction)
    (hg : mixer_get_static_pad pads gp_name = none) :
    kms_base_mixer_create_and_link_ghost_pad env pads src_pad gp_name templ (some t) =
      (true, pads ++ [{ name := gp_name, templ := templ, target := some t,
                        peer := some src_pad }]) := by
  have h := gst_pad_link_append_new pads
    { name := gp_name, templ := templ, target := some t, peer := none } src_pad hg
  simp only at h
  simp [kms_base_mixer_create_and_link_ghost_pad, gst_ghost_pad_new_from_template,
    gst_element_add_pad, hl, hd, hg, h]

/-- The two outcomes of `kms_base_mixer_create_and_link_ghost_pad`: nothing
changes and the result is `FALSE`; or the target is an unlinked pad of the
direction of the template, the name is free, and the new ghost pad is appended,
bound to the target and linked from `src_pad`. -/
theorem create_and_link_cases (env : Env) (pads : List GstGhostPad) (src_pad : GstPad)
    (gp_name templ : String) (target : Option GstPad) :
    kms_base_mixer_create_and_link_ghost_pad env pads src_pad gp_name templ target =
        (false, pads) ∨
    ∃ t, target = some t ∧ gst_pad_is_linked env pads t = false ∧
      gst_element_class_get_pad_template templ = some t.direction ∧
      mixer_get_static_pad pads gp_name = none ∧
      kms_base_mixer_create_and_link_ghost_pad env pads src_pad gp_name templ target =
        (true, pads ++ [{ name := gp_name, templ := templ, target := some t,
                          peer := some src_pad }]) := by
  cases target with
  | none =>
    left
    simp [kms_base_mixer_create_and_link_ghost_pad, gst_ghost_pad_new_from_template,
      gst_element_add_pad]
  | some t =>
    cases hl : gst_pad_is_linked env pads t with
    | true =>
      left
      simp [kms_base_mixer_create_and_link_ghost_pad, gst_ghost_pad_new_from_template,
        gst_element_add_pad, hl]
    | false =>
      by_cases hd : gst_element_class_get_pad_template templ = some t.direction
      · cases hg : mixer_get_static_pad pads gp_name with
        | some g =>
          left
          simp [kms_base_mixer_create_and_link_ghost_pad, gst_ghost_pad_new_from_template,
            gst_element_add_pad, hl, hd, hg]
        | none =>
          exact Or.inr ⟨t, rfl, hl, hd, rfl,
            create_and_link_ok env pads src_pad gp_name templ t hl hd hg⟩
      · left
        simp [kms_base_mixer_create_and_link_ghost_pad, gst_ghost_pad_new_from_template,
          gst_element_add_pad, hl, hd]

/-- The two outcomes of `gst_ghost_pad_set_target` on an existing ghost pad. -/
theorem set_target_cases (env : Env) (pads : List GstGhostPad) (name : String) (t : GstPad)
    (g : GstGhostPad) (hg : mixer_get_static_pad pads name = some g) :
    (gst_element_class_get_pad_template g.templ = some t.direction ∧
      gst_pad_is_linked env (clear_target pads name) t = false ∧
      gst_ghost_pad_set_target env pads name t = (true, put_target pads name t)) ∨
    gst_ghost_pad_set_target env pads name t = (false, clear_target pads name) := by
  unfold gst_ghost_pad_set_target
  rw [hg]
  simp only
  split_ifs with h
  · exact Or.inl ⟨h.1, h.2, rfl⟩
  · exact Or.inr rfl

/-! ## Detach -/

/-- C6: `kms_base_mixer_unhandle_port` is total; on an id that is not in the
registry it leaves the whole mixer unchanged, so a second detach of the same id
changes nothing; in every case the registry afterwards is the old one without
the entries of key `id`, the id is no longer found, the record found under any
other id is the one found before, and the id counter, the pads of the mixer and
the pads of the other elements are unchanged. -/
theorem unhandle_port_frame (mixer : KmsBaseMixer) (id : Int) :
    (g_hash_table_lookup mixer.ports id = none → kms_base_mixer_unhandle_port mixer id = mixer) ∧
    kms_base_mixer_unhandle_port (kms_base_mixer_unhandle_port mixer id) id =
      kms_base_mixer_unhandle_port mixer id ∧
    (kms_base_mixer_unhandle_port mixer id).ports =
      mixer.ports.filter (fun e => decide (e.1 ≠ id)) ∧
    g_hash_table_lookup (kms_base_mixer_unhandle_port mixer id).ports id = none ∧
    (∀ id2, id2 ≠ id →
      g_hash_table_lookup (kms_base_mixer_unhandle_port mixer id).ports id2 =
        g_hash_table_lookup mixer.ports id2) ∧
    (kms_base_mixer_unhandle_port mixer id).port_count = mixer.port_count ∧
    (kms_base_mixer_unhandle_port mixer id).pads = mixer.pads ∧
    (kms_base_mixer_unhandle_port mixer id).world = mixer.world := by
  have hgone : g_hash_table_lookup (kms_base_mixer_unhandle_port mixer id).ports id = none := by
    unfold kms_base_mixer_unhandle_port
    cases h : g_hash_table_lookup mixer.ports id with
    | none => simpa using h
    | some d => simpa using lookup_remove_self mixer.ports id
  have hnone : ∀ m : KmsBaseMixer, g_hash_table_lookup m.ports id = none →
      kms_base_mixer_unhandle_port m id = m := by
    intro m h
    simp [kms_base_mixer_unhandle_port, h]
  refine ⟨hnone mixer, hnone _ hgone, ?_, hgone, ?_, ?_, ?_, ?_⟩
  · unfold kms_base_mixer_unhandle_port
    cases h : g_hash_table_lookup mixer.ports id with
    | none =>
      have := remove_of_lookup_none mixer.ports id h
      simpa [g_hash_table_remove] using this.symm
    | some d => simp [g_hash_table_remove]
  · intro id2 hne
    unfold kms_base_mixer_unhandle_port
    cases h : g_hash_table_lookup mixer.ports id with
    | none => rfl
    | some d => simpa using lookup_remove_ne mixer.ports id id2 hne
  all_goals
    unfold kms_base_mixer_unhandle_port
    cases h : g_hash_table_lookup mixer.ports id <;> rfl

/-- Detaching an id that was never attached leaves the mixer as it is, and
detaching port `0` leaves no record under `0`. -/
theorem unhandle_port_frame_witness :
    kms_base_mixer_unhandle_port mixer0 5 = mixer0 ∧
    g_hash_table_lookup (kms_base_mixer_unhandle_port mixer0 0).ports 0 = none :=
  ⟨(unhandle_port_frame mixer0 5).1 (by decide), (unhandle_port_frame mixer0 0).2.2.2.1⟩

/-! ## Failed links -/

theorem link_src_pad_failure (env : Env) (mixer : KmsBaseMixer) (gp_name templ : String)
    (e : GstObject) (p : String)
    (h : env.parent e ≠ some env.mixer ∨ (get_target_pad env mixer.world e p).1 = none) :
    kms_base_mixer_link_src_pad env mixer gp_name templ e p = (false, mixer) := by
  unfold kms_base_mixer_link_src_pad
  by_cases hp : env.parent e ≠ some env.mixer
  · rw [if_pos hp]
  · rw [if_neg hp]
    rcases h with h | h
    · exact absurd h hp
    · rcases hr : get_target_pad env mixer.world e p with ⟨t, w⟩
      rw [hr] at h
      simp only at h
      subst h
      rfl

theorem link_sink_pad_failure (env : Env) (mixer : KmsBaseMixer) (id : Int)
    (gp_name templ : String) (e : GstObject) (p src_name : String) (off : TargetOffset)
    (h : env.parent e ≠ some env.mixer ∨ (get_target_pad env mixer.world e p).1 = none ∨
      g_hash_table_lookup mixer.ports id = none) :
    ∃ world, kms_base_mixer_link_sink_pad env mixer id gp_name templ e p src_name off =
      (false, { mixer with world := world }) := by
  unfold kms_base_mixer_link_sink_pad
  by_cases hp : env.parent e ≠ some env.mixer
  · rw [if_pos hp]
    exact ⟨mixer.world, rfl⟩
  · rw [if_neg hp]
    rcases hr : get_target_pad env mixer.world e p with ⟨t, w⟩
    cases t with
    | none => exact ⟨mixer.world, rfl⟩
    | some t =>
      rcases h with h | h | h
      · exact absurd h hp
      · rw [hr] at h
        simp at h
      · simp only [h]
        exact ⟨w, rfl⟩

/-- C7: a default link operation that is given an element whose parent is not
the mixer, or a pad name that resolves to neither a static nor a request pad,
or (sink operations only) an id that is not in the registry, returns `FALSE`
and leaves the registry (its entries with their stored targets, and the id
counter) and the ghost pads of the mixer as they were. -/
theorem failed_link_leaves_state (env : Env) (mixer : KmsBaseMixer) (id : Int) (e : GstObject)
    (p : String) :
    (env.parent e ≠ some env.mixer ∨ (get_target_pad env mixer.world e p).1 = none ∨
        g_hash_table_lookup mixer.ports id = none →
      ∀ r, r = kms_base_mixer_link_audio_sink_default env mixer id e p ∨
          r = kms_base_mixer_link_video_sink_default env mixer id e p →
        r.1 = false ∧ r.2.ports = mixer.ports ∧ r.2.port_count = mixer.port_count ∧
          r.2.pads = mixer.pads) ∧
    (env.parent e ≠ some env.mixer ∨ (get_target_pad env mixer.world e p).1 = none →
      ∀ r, r = kms_base_mixer_link_audio_src_default env mixer id e p ∨
          r = kms_base_mixer_link_video_src_default env mixer id e p →
        r.1 = false ∧ r.2.ports = mixer.ports ∧ r.2.port_count = mixer.port_count ∧
          r.2.pads = mixer.pads) := by
  refine ⟨fun h r hr => ?_, fun h r hr => ?_⟩
  · rcases hr with hr | hr
    · obtain ⟨w, hw⟩ := link_sink_pad_failure env mixer id
        (g_strdup_printf AUDIO_SINK_PAD_PREFIX id) AUDIO_SINK_PAD_NAME e p
        env.MIXER_AUDIO_SRC_PAD TargetOffset.audio_sink_target h
      rw [hr, kms_base_mixer_link_audio_sink_default, hw]
      exact ⟨rfl, rfl, rfl, rfl⟩
    · obtain ⟨w, hw⟩ := link_sink_pad_failure env mixer id
        (g_strdup_printf VIDEO_SINK_PAD_PREFIX id) VIDEO_SINK_PAD_NAME e p
        env.MIXER_VIDEO_SRC_PAD TargetOffset.video_sink_target h
      rw [hr, kms_base_mixer_link_video_sink_default, hw]
      exact ⟨rfl, rfl, rfl, rfl⟩
  · rcases hr with hr | hr
    · rw [hr, kms_base_mixer_link_audio_src_default, link_src_pad_failure env mixer _ _ e p h]
      exact ⟨rfl, rfl, rfl, rfl⟩
    · rw [hr, kms_base_mixer_link_video_src_default, link_src_pad_failure env mixer _ _ e p h]
      exact ⟨rfl, rfl, rfl, rfl⟩

/-- In the concrete pipeline: a sink link for the unknown port `7`, and a
source link through element `3`, which is not inside the mixer, both fail
without touching the registry or the pads of the mixer. -/
theorem failed_link_leaves_state_witness :
    ((kms_base_mixer_link_video_sink_default env0 mixer0 7 2 "sink").1 = false ∧
      (kms_base_mixer_link_video_sink_default env0 mixer0 7 2 "sink").2.ports = mixer0.ports ∧
      (kms_base_mixer_link_video_sink_default env0 mixer0 7 2 "sink").2.port_count =
        mixer0.port_count ∧
      (kms_base_mixer_link_video_sink_default env0 mixer0 7 2 "sink").2.pads = mixer0.pads) ∧
    ((kms_base_mixer_link_audio_src_default env0 mixer0 7 3 "src").1 = false ∧
      (kms_base_mixer_link_audio_src_default env0 mixer0 7 3 "src").2.ports = mixer0.ports ∧
      (kms_base_mixer_link_audio_src_default env0 mixer0 7 3 "src").2.port_count =
        mixer0.port_count ∧
      (kms_base_mixer_link_audio_src_default env0 mixer0 7 3 "src").2.pads = mixer0.pads) :=
  ⟨(failed_link_leaves_state env0 mixer0 7 2 "sink").1 (Or.inr (Or.inr (by decide))) _
      (Or.inr rfl),
    (failed_link_leaves_state env0 mixer0 7 3 "src").2 (Or.inl (by decide)) _ (Or.inl rfl)⟩

/-! ## The readiness callback -/

theorem audio_sink_name_ne_video_sink_name (a b : Int) :
    g_strdup_printf AUDIO_SINK_PAD_PREFIX a ≠ g_strdup_printf VIDEO_SINK_PAD_PREFIX b := by
  intro h
  have h2 := congrArg String.data h
  simp [g_strdup_printf, AUDIO_SINK_PAD_PREFIX, VIDEO_SINK_PAD_PREFIX, String.data_append] at h2

/-- The three outcomes of `end_point_pad_added`: nothing changes, or one ghost
pad is appended by the video branch, or one by the audio branch. -/
theorem end_point_pad_added_cases (env : Env) (mixer : KmsBaseMixer) (pad : GstPad)
    (port_data : KmsBaseMixerPortData) :
    end_point_pad_added env mixer pad port_data = mixer ∨
    (∃ t, port_data.video_sink_target = some t ∧ g_strstr_len pad.name "video" = true ∧
      end_point_pad_added env mixer pad port_data =
        { mixer with pads := mixer.pads ++
            [{ name := g_strdup_printf VIDEO_SINK_PAD_PREFIX port_data.id,
               templ := VIDEO_SINK_PAD_NAME, target := some t, peer := some pad }] }) ∨
    (∃ t, port_data.audio_sink_target = some t ∧ port_data.video_sink_target ≠ none ∧
      g_strstr_len pad.name "audio" = true ∧
      end_point_pad_added env mixer pad port_data =
        { mixer with pads := mixer.pads ++
            [{ name := g_strdup_printf AUDIO_SINK_PAD_PREFIX port_data.id,
               templ := AUDIO_SINK_PAD_NAME, target := some t, peer := some pad }] }) := by
  unfold end_point_pad_added
  split_ifs with h1 h2 h3
  · rcases create_and_link_cases env mixer.pads pad
      (g_strdup_printf VIDEO_SINK_PAD_PREFIX port_data.id) VIDEO_SINK_PAD_NAME
      port_data.video_sink_target with h | ⟨t, ht, _, _, _, h⟩
    · rw [h]
      exact Or.inl rfl
    · rw [h]
      exact Or.inr (Or.inl ⟨t, ht, h2.2, rfl⟩)
  · rcases create_and_link_cases env mixer.pads pad
      (g_strdup_printf AUDIO_SINK_PAD_PREFIX port_data.id) AUDIO_SINK_PAD_NAME
      port_data.audio_sink_target with h | ⟨t, ht, _, _, _, h⟩
    · rw [h]
      exact Or.inl rfl
    · rw [h]
      exact Or.inr (Or.inr ⟨t, ht, h3.1, h3.2, rfl⟩)
  · exact Or.inl rfl
  · exact Or.inl rfl

theorem end_point_pad_added_frame (env : Env) (mixer : KmsBaseMixer) (pad : GstPad)
    (port_data : KmsBaseMixerPortData) :
    (end_point_pad_added env mixer pad port_data).ports = mixer.ports ∧
    (end_point_pad_added env mixer pad port_data).port_count = mixer.port_count ∧
    (end_point_pad_added env mixer pad port_data).world = mixer.world := by
  rcases end_point_pad_added_cases env mixer pad port_data with h | ⟨t, _, _, h⟩ | ⟨t, _, _, _, h⟩ <;>
    rw [h] <;> exact ⟨rfl, rfl, rfl⟩

/-- C3: kind isolation of `end_point_pad_added`.  On a record without a video
sink target (for instance after `link_audio_sink` alone) the callback changes
nothing, whatever pad became ready.  In every state it leaves the registry as
it is, and every ghost pad it adds is named `video_sink_<id>` or
`audio_sink_<id>`; one named `video_sink_<id>` is bound to the record's
`video_sink_target` and comes from a pad whose name contains `video`, one named
`audio_sink_<id>` is bound to the record's `audio_sink_target` and comes from a
pad whose name contains `audio`. -/
theorem pad_added_kind_isolation (env : Env) (mixer : KmsBaseMixer) (pad : GstPad)
    (port_data : KmsBaseMixerPortData) :
    (port_data.video_sink_target = none → end_point_pad_added env mixer pad port_data = mixer) ∧
    (end_point_pad_added env mixer pad port_data).ports = mixer.ports ∧
    (∀ g ∈ (end_point_pad_added env mixer pad port_data).pads, g ∉ mixer.pads →
      (g.name = g_strdup_printf VIDEO_SINK_PAD_PREFIX port_data.id ∨
        g.name = g_strdup_printf AUDIO_SINK_PAD_PREFIX port_data.id) ∧
      (g.name = g_strdup_printf VIDEO_SINK_PAD_PREFIX port_data.id →
        g.target = port_data.video_sink_target ∧ g.peer = some pad ∧
          g_strstr_len pad.name "video" = true) ∧
      (g.name = g_strdup_printf AUDIO_SINK_PAD_PREFIX port_data.id →
        g.target = port_data.audio_sink_target ∧ g.peer = some pad ∧
          g_strstr_len pad.name "audio" = true)) := by
  refine ⟨fun hv => ?_, (end_point_pad_added_frame env mixer pad port_data).1, fun g hg hnew => ?_⟩
  · rcases end_point_pad_added_cases env mixer pad port_data with h | ⟨t, ht, _, _⟩ | ⟨t, _, hv2, _, _⟩
    · exact h
    · rw [hv] at ht
      cases ht
    · exact absurd hv hv2
  · rcases end_point_pad_added_cases env mixer pad port_data with h | ⟨t, ht, hs, h⟩ | ⟨t, ht, _, hs, h⟩
    · rw [h] at hg
      exact absurd hg hnew
    · rw [h] at hg
      simp only [List.mem_append, List.mem_singleton] at hg
      rcases hg with hg | hg
      · exact absurd hg hnew
      · subst hg
        refine ⟨Or.inl rfl, fun _ => ⟨ht.symm, rfl, hs⟩, fun hn => ?_⟩
        exact absurd hn.symm (audio_sink_name_ne_video_sink_name _ _)
    · rw [h] at hg
      simp only [List.mem_append, List.mem_singleton] at hg
      rcases hg with hg | hg
      · exact absurd hg hnew
      · subst hg
        refine ⟨Or.inr rfl, fun hn => ?_, fun _ => ⟨ht.symm, rfl, hs⟩⟩
        exact absurd hn (audio_sink_name_ne_video_sink_name _ _)

/-- On the record with only an audio target the ready video pad changes
nothing. -/
theorem pad_added_kind_isolation_witness :
    end_point_pad_added env0 mixer0 video_src_pad0 audio_only_data = mixer0 :=
  (pad_added_kind_isolation env0 mixer0 video_src_pad0 audio_only_data).1 rfl

/-- C9 (the code at the failing input): on a record whose `audio_sink_target` is
set and whose `video_sink_target` is not, `end_point_pad_added` for the ready
pad `mixer_audio_src` adds no ghost pad and leaves the mixer as it is, although
the same call on a record that also has a video target creates `audio_sink_0`
bound to the audio target and linked from the ready pad. -/
theorem audio_pad_added_without_video_target :
    audio_only_data.audio_sink_target = some sink_pad0 ∧
    g_str_has_prefix audio_src_pad0.name "mixer" = true ∧
    g_strstr_len audio_src_pad0.name "audio" = true ∧
    g_strstr_len audio_src_pad0.name "video" = false ∧
    end_point_pad_added env0 mixer0 audio_src_pad0 audio_only_data = mixer0 ∧
    (end_point_pad_added env0 mixer0 audio_src_pad0 audio_only_data).pads = [] ∧
    (end_point_pad_added env0 mixer0 audio_src_pad0 audio_video_data).pads =
      [{ name := "audio_sink_0", templ := "audio_sink_%u", target := some sink_pad0,
         peer := some audio_src_pad0 }] := by
  decide

/-- C2 (the code at the failing input): port `0` is attached, has no sink target
and no pad yet, and the mixer has no ghost pad.  `link_audio_sink` followed by
the readiness of `mixer_audio_src` leaves the mixer without any ghost pad;
the readiness followed by `link_audio_sink` creates `audio_sink_0`.  Both link
calls return `TRUE`, and the two final states differ. -/
theorem audio_sink_link_orders_diverge :
    g_hash_table_lookup mixer0.ports 0 = some (kms_base_mixer_port_data_create 1 0) ∧
    mixer0.pads = [] ∧
    (kms_base_mixer_link_audio_sink_default env0 mixer0 0 2 "sink").1 = true ∧
    (pad_added env0 (kms_base_mixer_link_audio_sink_default env0 mixer0 0 2 "sink").2
      audio_src_pad0).pads = [] ∧
    (kms_base_mixer_link_audio_sink_default env0 (pad_added env0 mixer0 audio_src_pad0) 0 2
      "sink").1 = true ∧
    (kms_base_mixer_link_audio_sink_default env0 (pad_added env0 mixer0 audio_src_pad0) 0 2
      "sink").2.pads =
      [{ name := "audio_sink_0", templ := "audio_sink_%u", target := some sink_pad0,
         peer := some audio_src_pad0 }] ∧
    pad_added env0 (kms_base_mixer_link_audio_sink_default env0 mixer0 0 2 "sink").2
        audio_src_pad0 ≠
      (kms_base_mixer_link_audio_sink_default env0 (pad_added env0 mixer0 audio_src_pad0) 0 2
        "sink").2 := by
  decide

/-! ## Source links -/

theorem set_target_member_port (d : KmsBaseMixerPortData) (off : TargetOffset) (t : GstPad) :
    (set_target_member d off t).port = d.port := by
  cases off <;> rfl

theorem get_set_target_member (d : KmsBaseMixerPortData) (off off2 : TargetOffset) (t : GstPad) :
    get_target_member (set_target_member d off t) off2 =
      if off = off2 then some t else get_target_member d off2 := by
  cases off <;> cases off2 <;> rfl

/-- The result of `kms_base_mixer_link_sink_pad` once the hierarchy check, the
target resolution and the lookup of the port have succeeded. -/
theorem link_sink_pad_eq (env : Env) (mixer : KmsBaseMixer) (id : Int) (gp_name templ : String)
    (e : GstObject) (p src_name : String) (off : TargetOffset) (t : GstPad) (w : List GstPad)
    (d : KmsBaseMixerPortData)
    (hp : env.parent e = some env.mixer)
    (ht : get_target_pad env mixer.world e p = (some t, w))
    (hl : g_hash_table_lookup mixer.ports id = some d) :
    kms_base_mixer_link_sink_pad env mixer id gp_name templ e p src_name off =
      match mixer_get_static_pad mixer.pads gp_name with
      | some _ =>
        ((gst_ghost_pad_set_target env mixer.pads gp_name t).1,
          { mixer with ports := store_target mixer.ports id off t,
                       pads := (gst_ghost_pad_set_target env mixer.pads gp_name t).2,
                       world := w })
      | none =>
        match gst_element_get_static_pad w d.port src_name with
        | some s =>
          ((kms_base_mixer_create_and_link_ghost_pad env mixer.pads s gp_name templ (some t)).1,
            { mixer with ports := store_target mixer.ports id off t,
                         pads := (kms_base_mixer_create_and_link_ghost_pad env mixer.pads s
                           gp_name templ (some t)).2,
                         world := w })
        | none => (true, { mixer with ports := store_target mixer.ports id off t, world := w }) := by
  unfold kms_base_mixer_link_sink_pad
  simp only [hp, ne_eq, not_true_eq_false, if_false, ht, hl]

/-- What a successful `kms_base_mixer_link_sink_pad` call implies about its
arguments. -/
theorem link_sink_pad_success (env : Env) (mixer : KmsBaseMixer) (id : Int)
    (gp_name templ : String) (e : GstObject) (p src_name : String) (off : TargetOffset)
    (h : (kms_base_mixer_link_sink_pad env mixer id gp_name templ e p src_name off).1 = true) :
    env.parent e = some env.mixer ∧
    (∃ t w, get_target_pad env mixer.world e p = (some t, w)) ∧
    (∃ d, g_hash_table_lookup mixer.ports id = some d) := by
  by_cases hp : env.parent e = some env.mixer
  · rcases ht : get_target_pad env mixer.world e p with ⟨t, w⟩
    cases t with
    | none =>
      obtain ⟨w2, hw⟩ := link_sink_pad_failure env mixer id gp_name templ e p src_name off
        (Or.inr (Or.inl (by rw [ht])))
      rw [hw] at h
      cases h
    | some t =>
      cases hl : g_hash_table_lookup mixer.ports id with
      | none =>
        obtain ⟨w2, hw⟩ := link_sink_pad_failure env mixer id gp_name templ e p src_name off
          (Or.inr (Or.inr hl))
        rw [hw] at h
        cases h
      | some d => exact ⟨hp, ⟨t, w, rfl⟩, ⟨d, rfl⟩⟩
  · obtain ⟨w2, hw⟩ := link_sink_pad_failure env mixer id gp_name templ e p src_name off
      (Or.inl hp)
    rw [hw] at h
    cases h

theorem get_target_pad_static (env : Env) (world : List GstPad) (e : GstObject) (p : String)
    (t : GstPad) (h : gst_element_get_static_pad world e p = some t) :
    get_target_pad env world e p = (some t, world) := by
  simp [get_target_pad, h]

theorem link_src_pad_frame (env : Env) (mixer : KmsBaseMixer) (gp_name templ : String)
    (e : GstObject) (p : String) :
    (kms_base_mixer_link_src_pad env mixer gp_name templ e p).2.ports = mixer.ports ∧
    (kms_base_mixer_link_src_pad env mixer gp_name templ e p).2.port_count =
      mixer.port_count := by
  by_cases hp : env.parent e = some env.mixer
  · rcases ht : get_target_pad env mixer.world e p with ⟨t, w⟩
    cases t with
    | none =>
      rw [link_src_pad_failure env mixer gp_name templ e p (Or.inr (by rw [ht]))]
      exact ⟨rfl, rfl⟩
    | some t =>
      cases hg : mixer_get_static_pad mixer.pads gp_name <;>
        simp [kms_base_mixer_link_src_pad, hp, ht, hg]
  · rw [link_src_pad_failure env mixer gp_name templ e p (Or.inl hp)]
    exact ⟨rfl, rfl⟩

theorem link_sink_pad_frame (env : Env) (mixer : KmsBaseMixer) (id : Int)
    (gp_name templ : String) (e : GstObject) (p src_name : String) (off : TargetOffset) :
    (kms_base_mixer_link_sink_pad env mixer id gp_name templ e p src_name off).2.port_count =
      mixer.port_count ∧
    (((kms_base_mixer_link_sink_pad env mixer id gp_name templ e p src_name off).1 = false ∧
        (kms_base_mixer_link_sink_pad env mixer id gp_name templ e p src_name off).2.ports =
          mixer.ports) ∨
      ∃ t, (get_target_pad env mixer.world e p).1 = some t ∧
        (kms_base_mixer_link_sink_pad env mixer id gp_name templ e p src_name off).2.ports =
          store_target mixer.ports id off t) := by
  by_cases hp : env.parent e = some env.mixer
  · rcases ht : get_target_pad env mixer.world e p with ⟨t, w⟩
    cases t with
    | none =>
      obtain ⟨w2, hw⟩ := link_sink_pad_failure env mixer id gp_name templ e p src_name off
        (Or.inr (Or.inl (by rw [ht])))
      rw [hw]
      exact ⟨rfl, Or.inl ⟨rfl, rfl⟩⟩
    | some t =>
      cases hl : g_hash_table_lookup mixer.ports id with
      | none =>
        obtain ⟨w2, hw⟩ := link_sink_pad_failure env mixer id gp_name templ e p src_name off
          (Or.inr (Or.inr hl))
        rw [hw]
        exact ⟨rfl, Or.inl ⟨rfl, rfl⟩⟩
      | some d =>
        rw [link_sink_pad_eq env mixer id gp_name templ e p src_name off t w d hp ht hl]
        cases mixer_get_static_pad mixer.pads gp_name with
        | some g => exact ⟨rfl, Or.inr ⟨t, rfl, rfl⟩⟩
        | none =>
          cases gst_element_get_static_pad w d.port src_name with
          | some s => exact ⟨rfl, Or.inr ⟨t, rfl, rfl⟩⟩
          | none => exact ⟨rfl, Or.inr ⟨t, rfl, rfl⟩⟩
  · obtain ⟨w2, hw⟩ := link_sink_pad_failure env mixer id gp_name templ e p src_name off
      (Or.inl hp)
    rw [hw]
    exact ⟨rfl, Or.inl ⟨rfl, rfl⟩⟩

theorem foldl_pad_added_frame (env : Env) (pad : GstPad)
    (l : List (Int × KmsBaseMixerPortData)) (mixer : KmsBaseMixer) :
    (l.foldl (fun m e => end_point_pad_added env m pad e.2) mixer).ports = mixer.ports ∧
    (l.foldl (fun m e => end_point_pad_added env m pad e.2) mixer).port_count =
      mixer.port_count ∧
    (l.foldl (fun m e => end_point_pad_added env m pad e.2) mixer).world = mixer.world := by
  induction l generalizing mixer with
  | nil => exact ⟨rfl, rfl, rfl⟩
  | cons e rest ih =>
    obtain ⟨h1, h2, h3⟩ := end_point_pad_added_frame env mixer pad e.2
    obtain ⟨i1, i2, i3⟩ := ih (end_point_pad_added env mixer pad e.2)
    simp only [List.foldl_cons]
    exact ⟨i1.trans h1, i2.trans h2, i3.trans h3⟩

theorem pad_added_frame (env : Env) (mixer : KmsBaseMixer) (pad : GstPad) :
    (pad_added env mixer pad).ports = mixer.ports ∧
    (pad_added env mixer pad).port_count = mixer.port_count ∧
    (pad_added env mixer pad).world = mixer.world ++ [pad] := by
  unfold pad_added
  obtain ⟨h1, h2, h3⟩ := foldl_pad_added_frame env pad
    (List.filter (fun e => decide (e.2.port = pad.parent)) mixer.ports)
    { mixer with world := mixer.world ++ [pad] }
  exact ⟨h1, h2, h3⟩

theorem handle_port_rejected (env : Env) (mixer : KmsBaseMixer) (e : GstObject)
    (h : handle_port_accepts env e = false) :
    kms_base_mixer_handle_port env mixer e = (-1, mixer) := by
  unfold kms_base_mixer_handle_port
  unfold handle_port_accepts at h
  by_cases h1 : env.is_mixer_end_point e = true
  · simp only [h1, Bool.true_and, Bool.not_eq_false_eq_eq_true, Bool.or_eq_true,
      decide_eq_true_eq] at h
    simp [h1, h]
  · simp [h1]

theorem handle_port_accepted (env : Env) (mixer : KmsBaseMixer) (e : GstObject)
    (h : handle_port_accepts env e = true) :
    kms_base_mixer_handle_port env mixer e =
      (mixer.port_count,
        { mixer with
          port_count := wrap_gint (mixer.port_count + 1)
          ports := g_hash_table_insert mixer.ports mixer.port_count
            (kms_base_mixer_port_data_create e mixer.port_count) }) := by
  unfold kms_base_mixer_handle_port
  unfold handle_port_accepts at h
  simp only [Bool.and_eq_true, Bool.not_eq_true_eq_eq_false, Bool.or_eq_false_iff,
    decide_eq_false_iff_not] at h
  obtain ⟨h1, h2, h3⟩ := h
  have h4 : ¬(env.parent env.mixer = none ∨ env.parent env.mixer ≠ env.parent e) := by
    rintro (h4 | h4)
    · exact h2 h4
    · exact h3 h4
  simp only [h1, Bool.not_true, Bool.false_eq_true, if_false, h4,
    kms_base_mixer_generate_port_id]

/-- Only a successful `handle_port` moves the id counter. -/
theorem step_port_count (env : Env) (mixer : KmsBaseMixer) (c : Call) :
    (step env mixer c).port_count =
      match returned_id env mixer c with
      | some _ => wrap_gint (mixer.port_count + 1)
      | none => mixer.port_count := by
  cases c with
  | handle_port e =>
    cases h : handle_port_accepts env e with
    | true => simp [step, returned_id, h, handle_port_accepted env mixer e h]
    | false => simp [step, returned_id, h, handle_port_rejected env mixer e h]
  | unhandle_port id =>
    simp only [step, returned_id, kms_base_mixer_unhandle_port]
    cases g_hash_table_lookup mixer.ports id <;> rfl
  | link_audio_src id e p => exact (link_src_pad_frame env mixer _ _ e p).2
  | link_video_src id e p => exact (link_src_pad_frame env mixer _ _ e p).2
  | link_audio_sink id e p => exact (link_sink_pad_frame env mixer id _ _ e p _ _).1
  | link_video_sink id e p => exact (link_sink_pad_frame env mixer id _ _ e p _ _).1
  | pad_added pad => exact (pad_added_frame env mixer pad).2.1

theorem returned_id_eq (env : Env) (mixer : KmsBaseMixer) (c : Call) (x : Int)
    (h : returned_id env mixer c = some x) : x = mixer.port_count := by
  cases c with
  | handle_port e =>
    cases ha : handle_port_accepts env e with
    | true =>
      simp only [returned_id, ha, if_true, handle_port_accepted env mixer e ha,
        Option.some.injEq] at h
      exact h.symm
    | false => simp [returned_id, ha] at h
  | _ => simp [returned_id] at h

/-! ## The ids handed out by attach -/

theorem wrap_gint_of_range (x : Int) (h1 : -2147483648 ≤ x) (h2 : x < 2147483648) :
    wrap_gint x = x := by
  unfold wrap_gint
  omega

theorem wrap_gint_succ (x : Int) (k : Int) :
    wrap_gint (wrap_gint (x + 1) + k) = wrap_gint (x + (k + 1)) := by
  unfold wrap_gint
  omega

theorem wrap_gint_range (x : Int) : -2147483648 ≤ wrap_gint x ∧ wrap_gint x < 2147483648 := by
  unfold wrap_gint
  omega

/-- While the counter stays within the non-negative range of a `gint`, the ids
handed out from a state are at least its counter and strictly increasing. -/
theorem handled_ids_sorted_from (env : Env) (cs : List Call) :
    ∀ mixer : KmsBaseMixer, 0 ≤ mixer.port_count →
      mixer.port_count + (handled_ids env mixer cs).length ≤ 2147483648 →
      (∀ x ∈ handled_ids env mixer cs, mixer.port_count ≤ x) ∧
        List.Pairwise (fun a b => a < b) (handled_ids env mixer cs) := by
  induction cs with
  | nil =>
    intro mixer _ _
    simp [handled_ids]
  | cons c cs ih =>
    intro mixer h0 hlen
    have hpc := step_port_count env mixer c
    rw [handled_ids] at hlen ⊢
    cases hr : returned_id env mixer c with
    | none =>
      rw [hr] at hpc hlen
      simp only [Option.toList, List.nil_append] at hlen ⊢
      simp only at hpc
      have := ih (step env mixer c) (by rw [hpc]; exact h0) (by rw [hpc]; exact hlen)
      rw [hpc] at this
      exact this
    | some x =>
      have hx := returned_id_eq env mixer c x hr
      rw [hr] at hpc hlen
      simp only [Option.toList, List.singleton_append, List.length_cons] at hlen ⊢
      simp only at hpc
      cases hrest : handled_ids env (step env mixer c) cs with
      | nil => simp [hx]
      | cons y ys =>
        rw [hrest] at hlen
        simp only [List.length_cons] at hlen
        have hw : wrap_gint (mixer.port_count + 1) = mixer.port_count + 1 := by
          apply wrap_gint_of_range <;> omega
        rw [hw] at hpc
        have := ih (step env mixer c) (by rw [hpc]; omega)
          (by rw [hpc, hrest]; simp only [List.length_cons]; omega)
        rw [hpc, hrest] at this
        obtain ⟨hge, hpw⟩ := this
        refine ⟨?_, ?_⟩
        · intro z hz
          rcases List.mem_cons.mp hz with hz | hz
          · omega
          · have := hge z hz
            omega
        · rw [List.pairwise_cons]
          refine ⟨?_, hpw⟩
          intro z hz
          have := hge z hz
          omega

/-- From a state whose counter is a `gint` value, the `k`-th of `n` successive
attach calls of the end point `1` returns the counter advanced `k` times with
wrap-around. -/
theorem replicate_handle_port_mem (n : Nat) :
    ∀ (mixer : KmsBaseMixer) (k : Nat), k < n →
      -2147483648 ≤ mixer.port_count → mixer.port_count < 2147483648 →
      wrap_gint (mixer.port_count + k) ∈
        handled_ids env0 mixer (List.replicate n (Call.handle_port 1)) := by
  induction n with
  | zero =>
    intro mixer k hk
    omega
  | succ n ih =>
    intro mixer k hk h1 h2
    have hacc : handle_port_accepts env0 1 = true := by decide
    have hr : returned_id env0 mixer (Call.handle_port 1) = some mixer.port_count := by
      simp [returned_id, hacc, handle_port_accepted env0 mixer 1 hacc]
    have hpc := step_port_count env0 mixer (Call.handle_port 1)
    rw [hr] at hpc
    simp only at hpc
    rw [List.replicate_succ, handled_ids, hr]
    simp only [Option.toList, List.singleton_append, List.mem_cons]
    cases k with
    | zero =>
      left
      simpa using wrap_gint_of_range _ h1 h2
    | succ k =>
      right
      have hrange := wrap_gint_range (mixer.port_count + 1)
      have := ih (step env0 mixer (Call.handle_port 1)) k (by omega)
        (by rw [hpc]; exact hrange.1) (by rw [hpc]; exact hrange.2)
      rw [hpc, wrap_gint_succ] at this
      have hc : ((k + 1 : Nat) : Int) = (k : Int) + 1 := by push_cast; rfl
      rw [hc]
      exact this

/-- After the first of `n + 1` attach calls on a fresh mixer, a later one
returns an id that is not above `0` as soon as the counter wraps. -/
theorem replicate_handle_port_not_sorted (n k : Nat) (hk : k < n)
    (hw : wrap_gint (1 + k) ≤ 0) :
    ¬ List.Pairwise (fun a b => a < b)
      (handled_ids env0 (kms_base_mixer_init [])
        (List.replicate (n + 1) (Call.handle_port 1))) := by
  intro hpw
  have hacc : handle_port_accepts env0 1 = true := by decide
  have hr : returned_id env0 (kms_base_mixer_init []) (Call.handle_port 1) = some 0 := by
    simp [returned_id, hacc, handle_port_accepted env0 _ 1 hacc, kms_base_mixer_init]
  have hpc := step_port_count env0 (kms_base_mixer_init []) (Call.handle_port 1)
  rw [hr] at hpc
  have hpc1 : (step env0 (kms_base_mixer_init []) (Call.handle_port 1)).port_count = 1 := by
    rw [hpc]
    decide
  rw [List.replicate_succ, handled_ids, hr] at hpw
  simp only [Option.toList, List.singleton_append, List.pairwise_cons] at hpw
  have hm := replicate_handle_port_mem n
    (step env0 (kms_base_mixer_init []) (Call.handle_port 1)) k hk
    (by rw [hpc1]; decide) (by rw [hpc1]; decide)
  rw [hpc1] at hm
  have := hpw.1 _ hm
  omega

/-- C1 (as stated, refuted): on a fresh mixer, `2^31 + 1` successive attach
calls of a valid end point do not return strictly increasing ids: the first
returns `0`, and the last returns `-2^31`, the `gint` counter having wrapped
after `2^31 - 1`. -/
theorem handled_ids_wrap_counterexample :
    ¬ List.Pairwise (fun a b => a < b)
      (handled_ids env0 (kms_base_mixer_init [])
        (List.replicate (2147483648 + 1) (Call.handle_port 1))) :=
  replicate_handle_port_not_sorted 2147483648 2147483647 (by decide) (by decide)

/-- C1 (amended): for every sequence of calls (attach, detach, links and pad
events in any order) on a freshly initialised mixer in which at most `2^31`
attach calls succeed, the ids returned by the successful attach calls are
strictly increasing in call order, hence pairwise distinct. -/
theorem handled_ids_strictly_increasing (env : Env) (world : List GstPad) (calls : List Call)
    (h : (handled_ids env (kms_base_mixer_init world) calls).length ≤ 2147483648) :
    List.Pairwise (fun a b => a < b) (handled_ids env (kms_base_mixer_init world) calls) ∧
    (handled_ids env (kms_base_mixer_init world) calls).Nodup := by
  have hs := (handled_ids_sorted_from env calls (kms_base_mixer_init world) (le_refl _)
    (by
      have : (kms_base_mixer_init world).port_count = 0 := rfl
      rw [this]
      omega)).2
  exact ⟨hs, hs.imp (fun hab => ne_of_lt hab)⟩

/-- In the concrete pipeline, attach, detach of the id, attach again and a
rejected attach return the ids `0` and `1`. -/
theorem handled_ids_strictly_increasing_witness :
    handled_ids env0 (kms_base_mixer_init world0) calls0 = [0, 1] ∧
    List.Pairwise (fun a b => a < b) (handled_ids env0 (kms_base_mixer_init world0) calls0) :=
  ⟨by decide, (handled_ids_strictly_increasing env0 world0 calls0 (by decide)).1⟩

/-! ## The stored sink targets -/

theorem stored_target_after_store (ports : List (Int × KmsBaseMixerPortData)) (id id2 : Int)
    (off off2 : TargetOffset) (t : GstPad) (h : id2 ≠ id ∨ off2 ≠ off) :
    (g_hash_table_lookup (store_target ports id2 off2 t) id).map
        (fun d => get_target_member d off) =
      (g_hash_table_lookup ports id).map (fun d => get_target_member d off) := by
  by_cases hid : id2 = id
  · subst hid
    have hoff : off2 ≠ off := by
      rcases h with h | h
      · exact absurd rfl h
      · exact h
    rw [lookup_store_self]
    cases g_hash_table_lookup ports id2 with
    | none => rfl
    | some d => simp [get_set_target_member, hoff]
  · rw [lookup_store_ne ports id2 id off2 t (fun h2 => hid h2.symm)]

theorem link_sink_pad_other_target (env : Env) (mixer : KmsBaseMixer) (id id2 : Int)
    (gp_name templ : String) (e : GstObject) (p src_name : String) (off off2 : TargetOffset)
    (h : id2 ≠ id ∨ off2 ≠ off) :
    (g_hash_table_lookup
        (kms_base_mixer_link_sink_pad env mixer id2 gp_name templ e p src_name off2).2.ports
        id).map (fun d => get_target_member d off) =
      (g_hash_table_lookup mixer.ports id).map (fun d => get_target_member d off) := by
  rcases (link_sink_pad_frame env mixer id2 gp_name templ e p src_name off2).2 with
    ⟨_, hs⟩ | ⟨t, _, hs⟩
  · rw [hs]
  · rw [hs]
    exact stored_target_after_store mixer.ports id id2 off off2 t h

theorem link_sink_pad_stores (env : Env) (mixer : KmsBaseMixer) (id : Int)
    (gp_name templ : String) (e : GstObject) (p src_name : String) (off : TargetOffset)
    (h : (kms_base_mixer_link_sink_pad env mixer id gp_name templ e p src_name off).1 = true) :
    (g_hash_table_lookup
        (kms_base_mixer_link_sink_pad env mixer id gp_name templ e p src_name off).2.ports
        id).map (fun d => get_target_member d off) =
      some (get_target_pad env mixer.world e p).1 := by
  obtain ⟨_, _, ⟨d, hd⟩⟩ := link_sink_pad_success env mixer id gp_name templ e p src_name off h
  rcases (link_sink_pad_frame env mixer id gp_name templ e p src_name off).2 with
    ⟨hf, _⟩ | ⟨t, ht, hs⟩
  · rw [h] at hf
    cases hf
  · rw [hs, lookup_store_self, hd, ht]
    simp [get_set_target_member]

/-- C10 (as stated, refuted): on the attached port `0`,
`link_video_sink (0, 2, "sink")` stores the pad `sink` as video sink target,
and a later `link_video_sink (0, 2, "other")` succeeds and replaces it by the
pad `other`; the port stays attached throughout. -/
theorem stored_sink_target_counterexample :
    (g_hash_table_lookup (kms_base_mixer_link_video_sink_default env0 mixer0 0 2
      "sink").2.ports 0).map (fun d => d.video_sink_target) = some (some sink_pad0) ∧
    (kms_base_mixer_link_video_sink_default env0
      (kms_base_mixer_link_video_sink_default env0 mixer0 0 2 "sink").2 0 2 "other").1 = true ∧
    (g_hash_table_lookup (kms_base_mixer_link_video_sink_default env0
      (kms_base_mixer_link_video_sink_default env0 mixer0 0 2 "sink").2 0 2 "other").2.ports
      0).map (fun d => d.video_sink_target) = some (some other_pad0) ∧
    sink_pad0 ≠ other_pad0 := by
  decide

/-- C10 (amended): the sink target of one kind stored on the record of an id is
changed only by a sink link call of that kind for that id.  Every other call
(a sink link of the other kind or for another id, a source link, a pad event
with its readiness callbacks, a detach of another id, an attach that does not
return this id) leaves the stored target as it is; a successful sink link of
that kind for that id stores the target it resolved, whatever was stored
before. -/
theorem sink_target_written_only_by_same_kind_link (env : Env) (mixer : KmsBaseMixer) (id : Int)
    (off : TargetOffset) :
    (∀ c : Call, c ≠ Call.unhandle_port id → returned_id env mixer c ≠ some id →
      (∀ e p, c ≠ link_sink_call off id e p) →
      (g_hash_table_lookup (step env mixer c).ports id).map (fun d => get_target_member d off) =
        (g_hash_table_lookup mixer.ports id).map (fun d => get_target_member d off)) ∧
    (∀ e p, (link_sink_default env mixer off id e p).1 = true →
      (g_hash_table_lookup (link_sink_default env mixer off id e p).2.ports id).map
          (fun d => get_target_member d off) =
        some (get_target_pad env mixer.world e p).1) := by
  constructor
  · intro c hdetach hattach hlink
    cases c with
    | handle_port e =>
      cases ha : handle_port_accepts env e with
      | true =>
        have hne : mixer.port_count ≠ id := by
          intro heq
          apply hattach
          simp [returned_id, ha, handle_port_accepted env mixer e ha, heq]
        simp only [step, handle_port_accepted env mixer e ha]
        rw [lookup_insert_ne _ _ _ _ hne]
      | false => simp only [step, handle_port_rejected env mixer e ha]
    | unhandle_port id2 =>
      have hne : id ≠ id2 := fun h => hdetach (by rw [h])
      simp only [step, kms_base_mixer_unhandle_port]
      cases g_hash_table_lookup mixer.ports id2 with
      | none => rfl
      | some d =>
        simp only
        rw [lookup_remove_ne mixer.ports id2 id hne]
    | link_audio_src id2 e p =>
      simp only [step, kms_base_mixer_link_audio_src_default]
      rw [(link_src_pad_frame env mixer _ _ e p).1]
    | link_video_src id2 e p =>
      simp only [step, kms_base_mixer_link_video_src_default]
      rw [(link_src_pad_frame env mixer _ _ e p).1]
    | link_audio_sink id2 e p =>
      simp only [step, kms_base_mixer_link_audio_sink_default]
      apply link_sink_pad_other_target
      by_cases hid : id2 = id
      · right
        intro hoff
        apply hlink e p
        rw [← hoff, hid]
        rfl
      · exact Or.inl hid
    | link_video_sink id2 e p =>
      simp only [step, kms_base_mixer_link_video_sink_default]
      apply link_sink_pad_other_target
      by_cases hid : id2 = id
      · right
        intro hoff
        apply hlink e p
        rw [← hoff, hid]
        rfl
      · exact Or.inl hid
    | pad_added pad =>
      simp only [step]
      rw [(pad_added_frame env mixer pad).1]
  · intro e p h
    cases off with
    | audio_sink_target => exact link_sink_pad_stores env mixer id _ _ e p _ _ h
    | video_sink_target => exact link_sink_pad_stores env mixer id _ _ e p _ _ h

/-- In the concrete pipeline, once `link_video_sink (0, 2, "sink")` has stored
the pad `sink`, a later `link_audio_sink (0, 2, "other")` leaves the stored
video target as it is, and the first call stored what it resolved. -/
theorem sink_target_written_only_by_same_kind_link_witness :
    (g_hash_table_lookup (step env0 (kms_base_mixer_link_video_sink_default env0 mixer0 0 2
        "sink").2 (Call.link_audio_sink 0 2 "other")).ports 0).map
        (fun d => get_target_member d TargetOffset.video_sink_target) =
      (g_hash_table_lookup (kms_base_mixer_link_video_sink_default env0 mixer0 0 2
        "sink").2.ports 0).map (fun d => get_target_member d TargetOffset.video_sink_target) ∧
    (g_hash_table_lookup (link_sink_default env0 mixer0 TargetOffset.video_sink_target 0 2
        "sink").2.ports 0).map (fun d => get_target_member d TargetOffset.video_sink_target) =
      some (get_target_pad env0 mixer0.world 2 "sink").1 :=
  ⟨(sink_target_written_only_by_same_kind_link env0
      (kms_base_mixer_link_video_sink_default env0 mixer0 0 2 "sink").2 0
      TargetOffset.video_sink_target).1 (Call.link_audio_sink 0 2 "other") (by decide)
      (by decide) (by intro e p; simp [link_sink_call]),
    (sink_target_written_only_by_same_kind_link env0 mixer0 0
      TargetOffset.video_sink_target).2 2 "sink" (by decide)⟩

/-! ## The pads of a reachable mixer have distinct names -/

theorem append_new_unique (pads : List GstGhostPad) (g : GstGhostPad) (h : pads_unique pads)
    (hg : mixer_get_static_pad pads g.name = none) : pads_unique (pads ++ [g]) := by
  intro name
  simp only [count_pads_append_single]
  by_cases hn : g.name = name
  · subst hn
    simp [count_pads_eq_zero _ _ hg]
  · have := h name
    simp only [hn, if_false]
    omega

theorem create_and_link_unique (env : Env) (pads : List GstGhostPad) (src_pad : GstPad)
    (gp_name templ : String) (target : Option GstPad) (h : pads_unique pads) :
    pads_unique
      (kms_base_mixer_create_and_link_ghost_pad env pads src_pad gp_name templ target).2 := by
  rcases create_and_link_cases env pads src_pad gp_name templ target with
    hc | ⟨t, _, _, _, hg, hc⟩
  · rw [hc]
    exact h
  · rw [hc]
    exact append_new_unique pads _ h hg

theorem set_target_unique (env : Env) (pads : List GstGhostPad) (name : String) (t : GstPad)
    (h : pads_unique pads) : pads_unique (gst_ghost_pad_set_target env pads name t).2 := by
  cases hg : mixer_get_static_pad pads name with
  | none =>
    simp only [gst_ghost_pad_set_target, hg]
    exact h
  | some g =>
    rcases set_target_cases env pads name t g hg with ⟨_, _, hs⟩ | hs
    · rw [hs]
      intro name2
      simp only [put_target_count]
      exact h name2
    · rw [hs]
      intro name2
      simp only [clear_target_count]
      exact h name2

theorem new_from_template_name (env : Env) (pads : List GstGhostPad) (name templ : String)
    (target : Option GstPad) (g : GstGhostPad)
    (h : gst_ghost_pad_new_from_template env pads name target templ = some g) :
    g.name = name := by
  unfold gst_ghost_pad_new_from_template at h
  cases target with
  | none => simp at h
  | some t =>
    simp only at h
    split_ifs at h
    simp only [Option.some.injEq] at h
    rw [← h]

theorem link_src_pad_unique (env : Env) (mixer : KmsBaseMixer) (gp_name templ : String)
    (e : GstObject) (p : String) (h : pads_unique mixer.pads) :
    pads_unique (kms_base_mixer_link_src_pad env mixer gp_name templ e p).2.pads := by
  by_cases hp : env.parent e = some env.mixer
  · rcases ht : get_target_pad env mixer.world e p with ⟨t, w⟩
    cases t with
    | none =>
      rw [link_src_pad_failure env mixer gp_name templ e p (Or.inr (by rw [ht]))]
      exact h
    | some t =>
      cases hg : mixer_get_static_pad mixer.pads gp_name with
      | none =>
        simp only [kms_base_mixer_link_src_pad, hp, ne_eq, not_true_eq_false, if_false, ht, hg]
        cases hn : gst_ghost_pad_new_from_template env mixer.pads gp_name (some t) templ with
        | none =>
          simp only [gst_element_add_pad]
          exact h
        | some g =>
          have hname := new_from_template_name env mixer.pads gp_name templ (some t) g hn
          simp only [gst_element_add_pad, hname, hg]
          exact append_new_unique mixer.pads g h (by rw [hname]; exact hg)
      | some g =>
        simp only [kms_base_mixer_link_src_pad, hp, ne_eq, not_true_eq_false, if_false, ht, hg]
        exact set_target_unique env _ _ _ h
  · rw [link_src_pad_failure env mixer gp_name templ e p (Or.inl hp)]
    exact h

theorem link_sink_pad_unique (env : Env) (mixer : KmsBaseMixer) (id : Int)
    (gp_name templ : String) (e : GstObject) (p src_name : String) (off : TargetOffset)
    (h : pads_unique mixer.pads) :
    pads_unique
      (kms_base_mixer_link_sink_pad env mixer id gp_name templ e p src_name off).2.pads := by
  by_cases hf : env.parent e ≠ some env.mixer ∨ (get_target_pad env mixer.world e p).1 = none ∨
      g_hash_table_lookup mixer.ports id = none
  · obtain ⟨w, hw⟩ := link_sink_pad_failure env mixer id gp_name templ e p src_name off hf
    rw [hw]
    exact h
  · simp only [not_or, ne_eq, not_not] at hf
    obtain ⟨hp, ht, hl⟩ := hf
    rcases hr : get_target_pad env mixer.world e p with ⟨t, w⟩
    rw [hr] at ht
    cases t with
    | none => exact absurd rfl ht
    | some t =>
      cases hd : g_hash_table_lookup mixer.ports id with
      | none => exact absurd hd hl
      | some d =>
        rw [link_sink_pad_eq env mixer id gp_name templ e p src_name off t w d hp hr hd]
        cases hg : mixer_get_static_pad mixer.pads gp_name with
        | some g => exact set_target_unique env _ _ _ h
        | none =>
          cases gst_element_get_static_pad w d.port src_name with
          | none => exact h
          | some s => exact create_and_link_unique env _ _ _ _ _ h

theorem end_point_pad_added_unique (env : Env) (mixer : KmsBaseMixer) (pad : GstPad)
    (port_data : KmsBaseMixerPortData) (h : pads_unique mixer.pads) :
    pads_unique (end_point_pad_added env mixer pad port_data).pads := by
  unfold end_point_pad_added
  split_ifs
  · exact create_and_link_unique env _ _ _ _ _ h
  · exact create_and_link_unique env _ _ _ _ _ h
  · exact h
  · exact h

theorem foldl_pad_added_unique (env : Env) (pad : GstPad)
    (l : List (Int × KmsBaseMixerPortData)) (mixer : KmsBaseMixer)
    (h : pads_unique mixer.pads) :
    pads_unique (l.foldl (fun m e => end_point_pad_added env m pad e.2) mixer).pads := by
  induction l generalizing mixer with
  | nil => exact h
  | cons e rest ih =>
    simp only [List.foldl_cons]
    exact ih _ (end_point_pad_added_unique env mixer pad e.2 h)

theorem step_pads_unique (env : Env) (mixer : KmsBaseMixer) (c : Call)
    (h : pads_unique mixer.pads) : pads_unique (step env mixer c).pads := by
  cases c with
  | handle_port e =>
    cases ha : handle_port_accepts env e with
    | true =>
      simp only [step, handle_port_accepted env mixer e ha]
      exact h
    | false =>
      simp only [step, handle_port_rejected env mixer e ha]
      exact h
  | unhandle_port id =>
    simp only [step, kms_base_mixer_unhandle_port]
    cases g_hash_table_lookup mixer.ports id <;> exact h
  | link_audio_src id e p => exact link_src_pad_unique env mixer _ _ e p h
  | link_video_src id e p => exact link_src_pad_unique env mixer _ _ e p h
  | link_audio_sink id e p => exact link_sink_pad_unique env mixer id _ _ e p _ _ h
  | link_video_sink id e p => exact link_sink_pad_unique env mixer id _ _ e p _ _ h
  | pad_added pad => exact foldl_pad_added_unique env pad _ _ h

/-- The hypothesis of C4 on the names of the pads holds in every state reached
from a freshly initialised mixer. -/
theorem run_pads_unique (env : Env) (world : List GstPad) (calls : List Call) :
    pads_unique (run env (kms_base_mixer_init world) calls).pads := by
  have key : ∀ (cs : List Call) (m : KmsBaseMixer), pads_unique m.pads →
      pads_unique (run env m cs).pads := by
    intro cs
    induction cs with
    | nil =>
      intro m hm
      exact hm
    | cons c cs ih =>
      intro m hm
      exact ih _ (step_pads_unique env m c hm)
  apply key
  intro name
  simp [kms_base_mixer_init, count_pads]

/-! ## The two orders of link and readiness, video kind -/

theorem filter_store_target (ports : List (Int × KmsBaseMixerPortData)) (id : Int)
    (off : TargetOffset) (t : GstPad) (d : KmsBaseMixerPortData) (q : GstObject)
    (hl : g_hash_table_lookup ports id = some d)
    (hf : ports.filter (fun x => decide (x.2.port = q)) = [(id, d)]) :
    (store_target ports id off t).filter (fun x => decide (x.2.port = q)) =
      [(id, set_target_member d off t)] := by
  induction ports with
  | nil => simp [g_hash_table_lookup] at hl
  | cons x rest ih =>
    obtain ⟨k, v⟩ := x
    by_cases hq : v.port = q
    · have hc : List.filter (fun x => decide (x.2.port = q)) ((k, v) :: rest) =
          (k, v) :: List.filter (fun x => decide (x.2.port = q)) rest :=
        List.filter_cons_of_pos (by simpa using hq)
      rw [hc] at hf
      simp only [List.cons.injEq, Prod.mk.injEq] at hf
      obtain ⟨⟨hk, hv⟩, hrest⟩ := hf
      rw [store_target, if_pos hk]
      have hq2 : (set_target_member v off t).port = q := by
        rw [set_target_member_port]
        exact hq
      rw [List.filter_cons_of_pos (by simpa using hq2), hrest, hk, hv]
    · have hc : List.filter (fun x => decide (x.2.port = q)) ((k, v) :: rest) =
          List.filter (fun x => decide (x.2.port = q)) rest :=
        List.filter_cons_of_neg (by simpa using hq)
      rw [hc] at hf
      have hmem : (id, d) ∈ rest.filter (fun x => decide (x.2.port = q)) := by
        rw [hf]
        exact List.mem_singleton.mpr rfl
      have hdq : d.port = q := by
        simpa using (List.mem_filter.mp hmem).2
      by_cases hk : k = id
      · simp only [g_hash_table_lookup, hk, if_true, Option.some.injEq] at hl
        rw [hl] at hq
        exact absurd hdq hq
      · simp only [g_hash_table_lookup, hk, if_false] at hl
        rw [store_target, if_neg hk, List.filter_cons_of_neg (by simpa using hq)]
        exact ih hl hf

theorem get_static_pad_append_of_some (world : List GstPad) (x : GstPad) (e : GstObject)
    (p : String) (t : GstPad) (h : gst_element_get_static_pad world e p = some t) :
    gst_element_get_static_pad (world ++ [x]) e p = some t := by
  unfold gst_element_get_static_pad at h ⊢
  rw [List.find?_append, h]
  rfl

theorem get_static_pad_append_of_none (world : List GstPad) (x : GstPad)
    (h : gst_element_get_static_pad world x.parent x.name = none) :
    gst_element_get_static_pad (world ++ [x]) x.parent x.name = some x := by
  unfold gst_element_get_static_pad at h ⊢
  rw [List.find?_append, h]
  simp

/-- For the video kind the two orders agree.  Let the port `id` be attached with
record `d`, `d` being the only record of its end point and carrying its own key
as id, with no video sink target; let the mixer have no pad `video_sink_<id>`;
let `pad` be the source pad `MIXER_VIDEO_SRC_PAD` of the end point, not yet
exposed, its name starting with `mixer` and containing `video`; let `pad_name`
name a static pad `t` of an element inside the mixer, a sink pad that nothing is
linked to.  Then `link_video_sink` followed by the readiness of `pad`, and the
readiness followed by `link_video_sink`, end in the same state: the record
stores `t` and the mixer has gained the one pad `video_sink_<id>`, bound to `t`
and linked from `pad`. -/
theorem video_sink_link_orders_agree (env : Env) (mixer : KmsBaseMixer) (id : Int)
    (e : GstObject) (p : String) (t pad : GstPad) (d : KmsBaseMixerPortData)
    (hp : env.parent e = some env.mixer)
    (ht : gst_element_get_static_pad mixer.world e p = some t)
    (htd : t.direction = GstPadDirection.GST_PAD_SINK)
    (htl : gst_pad_is_linked env mixer.pads t = false)
    (hl : g_hash_table_lookup mixer.ports id = some d)
    (hid : d.id = id)
    (hd : d.video_sink_target = none)
    (hf : mixer.ports.filter (fun x => decide (x.2.port = d.port)) = [(id, d)])
    (hg : mixer_get_static_pad mixer.pads (g_strdup_printf VIDEO_SINK_PAD_PREFIX id) = none)
    (hpn : pad.name = env.MIXER_VIDEO_SRC_PAD)
    (hpd : pad.direction = GstPadDirection.GST_PAD_SRC)
    (hpp : pad.parent = d.port)
    (hn : gst_element_get_static_pad mixer.world d.port env.MIXER_VIDEO_SRC_PAD = none)
    (hm : g_str_has_prefix env.MIXER_VIDEO_SRC_PAD "mixer" = true)
    (hv : g_strstr_len env.MIXER_VIDEO_SRC_PAD "video" = true) :
    pad_added env (kms_base_mixer_link_video_sink_default env mixer id e p).2 pad =
      (kms_base_mixer_link_video_sink_default env (pad_added env mixer pad) id e p).2 ∧
    (kms_base_mixer_link_video_sink_default env mixer id e p).1 = true ∧
    kms_base_mixer_link_video_sink_default env (pad_added env mixer pad) id e p =
      (true,
        { mixer with
          ports := store_target mixer.ports id TargetOffset.video_sink_target t
          pads := mixer.pads ++
            [{ name := g_strdup_printf VIDEO_SINK_PAD_PREFIX id, templ := VIDEO_SINK_PAD_NAME,
               target := some t, peer := some pad }]
          world := mixer.world ++ [pad] }) := by
  have htd2 : gst_element_class_get_pad_template VIDEO_SINK_PAD_NAME = some t.direction := by
    rw [htd]
    decide
  have hcreate := create_and_link_ok env mixer.pads pad
    (g_strdup_printf VIDEO_SINK_PAD_PREFIX id) VIDEO_SINK_PAD_NAME t htl htd2 hg
  -- link first
  have e1 := link_sink_pad_eq env mixer id (g_strdup_printf VIDEO_SINK_PAD_PREFIX id)
    VIDEO_SINK_PAD_NAME e p env.MIXER_VIDEO_SRC_PAD TargetOffset.video_sink_target t mixer.world d
    hp (get_target_pad_static env _ e p t ht) hl
  simp only [hg, hn] at e1
  have hf1 := filter_store_target mixer.ports id TargetOffset.video_sink_target t d d.port hl hf
  have o1 : pad_added env (kms_base_mixer_link_video_sink_default env mixer id e p).2 pad =
      { mixer with
        ports := store_target mixer.ports id TargetOffset.video_sink_target t
        pads := mixer.pads ++
          [{ name := g_strdup_printf VIDEO_SINK_PAD_PREFIX id, templ := VIDEO_SINK_PAD_NAME,
             target := some t, peer := some pad }]
        world := mixer.world ++ [pad] } := by
    unfold kms_base_mixer_link_video_sink_default
    rw [e1]
    unfold pad_added
    simp only [hpp, hf1, List.foldl_cons, List.foldl_nil]
    unfold end_point_pad_added
    simp only [hpn, hpd, hm, hv, set_target_member, hcreate, hid, and_self,
      if_true, ne_eq, reduceCtorEq, not_false_eq_true]
  -- readiness first
  have p2 : pad_added env mixer pad = { mixer with world := mixer.world ++ [pad] } := by
    unfold pad_added
    simp only [hpp, hf, List.foldl_cons, List.foldl_nil]
    unfold end_point_pad_added
    simp [hd]
  have hsrc : gst_element_get_static_pad (mixer.world ++ [pad]) d.port
      env.MIXER_VIDEO_SRC_PAD = some pad := by
    have := get_static_pad_append_of_none mixer.world pad (by rw [hpp, hpn]; exact hn)
    rw [hpp, hpn] at this
    exact this
  have e2 := link_sink_pad_eq env { mixer with world := mixer.world ++ [pad] }
    id (g_strdup_printf VIDEO_SINK_PAD_PREFIX id)
    VIDEO_SINK_PAD_NAME e p env.MIXER_VIDEO_SRC_PAD TargetOffset.video_sink_target t _ d
    hp (get_target_pad_static env _ e p t (get_static_pad_append_of_some _ _ e p t ht)) hl
  simp only [hg, hsrc, hcreate] at e2
  have o2 : kms_base_mixer_link_video_sink_default env (pad_added env mixer pad) id e p =
      (true,
        { mixer with
          ports := store_target mixer.ports id TargetOffset.video_sink_target t
          pads := mixer.pads ++
            [{ name := g_strdup_printf VIDEO_SINK_PAD_PREFIX id, templ := VIDEO_SINK_PAD_NAME,
               target := some t, peer := some pad }]
          world := mixer.world ++ [pad] }) := by
    rw [p2]
    exact e2
  refine ⟨?_, ?_, o2⟩
  · rw [o1, o2]
  · unfold kms_base_mixer_link_video_sink_default
    rw [e1]

/-- In the concrete pipeline, for port `0` and the pad `sink`, the two orders
end in the same state. -/
theorem video_sink_link_orders_agree_witness :
    pad_added env0 (kms_base_mixer_link_video_sink_default env0 mixer0 0 2 "sink").2
        video_src_pad0 =
      (kms_base_mixer_link_video_sink_default env0 (pad_added env0 mixer0 video_src_pad0) 0 2
        "sink").2 :=
  (video_sink_link_orders_agree env0 mixer0 0 2 "sink" sink_pad0 video_src_pad0
    (kms_base_mixer_port_data_create 1 0) (by decide) (by decide) (by decide) (by decide)
    (by decide) (by decide) (by decide) (by decide) (by decide) (by decide) (by decide)
    (by decide) (by decide) (by decide) (by decide)).1

/-! ## Keys and record ids -/

theorem store_target_keys (ports : List (Int × KmsBaseMixerPortData)) (id : Int)
    (off : TargetOffset) (t : GstPad) (h : keys_are_ids ports) :
    keys_are_ids (store_target ports id off t) := by
  induction ports with
  | nil => exact h
  | cons x rest ih =>
    obtain ⟨k, v⟩ := x
    have hx : v.id = k := h (k, v) (List.mem_cons_self _ _)
    have hrest : keys_are_ids rest := fun y hy => h y (List.mem_cons_of_mem _ hy)
    by_cases hk : k = id
    · rw [store_target, if_pos hk]
      intro y hy
      rcases List.mem_cons.mp hy with hy | hy
      · subst hy
        cases off <;> exact hx
      · exact hrest y hy
    · rw [store_target, if_neg hk]
      intro y hy
      rcases List.mem_cons.mp hy with hy | hy
      · subst hy
        exact hx
      · exact ih hrest y hy

theorem step_keys (env : Env) (mixer : KmsBaseMixer) (c : Call) (h : keys_are_ids mixer.ports) :
    keys_are_ids (step env mixer c).ports := by
  cases c with
  | handle_port e =>
    cases ha : handle_port_accepts env e with
    | true =>
      simp only [step, handle_port_accepted env mixer e ha, g_hash_table_insert,
        g_hash_table_remove]
      intro y hy
      rcases List.mem_append.mp hy with hy | hy
      · exact h y (List.mem_filter.mp hy).1
      · rw [List.mem_singleton.mp hy]
        rfl
    | false =>
      simp only [step, handle_port_rejected env mixer e ha]
      exact h
  | unhandle_port id =>
    simp only [step, kms_base_mixer_unhandle_port]
    cases g_hash_table_lookup mixer.ports id with
    | none => exact h
    | some d => exact fun y hy => h y (List.mem_filter.mp hy).1
  | link_audio_src id e p =>
    simp only [step, kms_base_mixer_link_audio_src_default]
    rw [(link_src_pad_frame env mixer _ _ e p).1]
    exact h
  | link_video_src id e p =>
    simp only [step, kms_base_mixer_link_video_src_default]
    rw [(link_src_pad_frame env mixer _ _ e p).1]
    exact h
  | link_audio_sink id e p =>
    simp only [step, kms_base_mixer_link_audio_sink_default]
    rcases (link_sink_pad_frame env mixer id (g_strdup_printf AUDIO_SINK_PAD_PREFIX id)
      AUDIO_SINK_PAD_NAME e p env.MIXER_AUDIO_SRC_PAD TargetOffset.audio_sink_target).2 with
      ⟨_, hs⟩ | ⟨t, _, hs⟩
    · rw [hs]
      exact h
    · rw [hs]
      exact store_target_keys _ _ _ _ h
  | link_video_sink id e p =>
    simp only [step, kms_base_mixer_link_video_sink_default]
    rcases (link_sink_pad_frame env mixer id (g_strdup_printf VIDEO_SINK_PAD_PREFIX id)
      VIDEO_SINK_PAD_NAME e p env.MIXER_VIDEO_SRC_PAD TargetOffset.video_sink_target).2 with
      ⟨_, hs⟩ | ⟨t, _, hs⟩
    · rw [hs]
      exact h
    · rw [hs]
      exact store_target_keys _ _ _ _ h
  | pad_added pad =>
    simp only [step]
    rw [(pad_added_frame env mixer pad).1]
    exact h

/-- In every state reached from a freshly initialised mixer, each key of the
registry is the id of its record. -/
theorem run_keys_are_ids (env : Env) (world : List GstPad) (calls : List Call) :
    keys_are_ids (run env (kms_base_mixer_init world) calls).ports := by
  have key : ∀ (cs : List Call) (m : KmsBaseMixer), keys_are_ids m.ports →
      keys_are_ids (run env m cs).ports := by
    intro cs
    induction cs with
    | nil =>
      intro m hm
      exact hm
    | cons c cs ih =>
      intro m hm
      exact ih _ (step_keys env m c hm)
  apply key
  intro x hx
  simp [kms_base_mixer_init] at hx

/-! ## Attach calls from several threads -/

theorem lookup_insert_self (ports : List (Int × KmsBaseMixerPortData)) (k : Int)
    (v : KmsBaseMixerPortData) :
    g_hash_table_lookup (g_hash_table_insert ports k v) k = some v := by
  unfold g_hash_table_insert
  rw [lookup_append_single, lookup_remove_self]
  simp

/-- The two sections of one thread, run one after the other, are
`kms_base_mixer_handle_port`. -/
theorem attach_sections_eq_handle_port (env : Env) (mixer : KmsBaseMixer) (e : GstObject) :
    attach_section env (attach_section env mixer (AttachThread.start e)).1
        (attach_section env mixer (AttachThread.start e)).2 =
      ((kms_base_mixer_handle_port env mixer e).2,
        AttachThread.done e (kms_base_mixer_handle_port env mixer e).1) := by
  cases ha : handle_port_accepts env e with
  | true =>
    rw [handle_port_accepted env mixer e ha]
    simp [attach_section, ha, kms_base_mixer_generate_port_id]
  | false =>
    rw [handle_port_rejected env mixer e ha]
    simp [attach_section, ha]

theorem getElem?_split {α : Type} (l : List α) (i : Nat) (t : α) (h : l[i]? = some t) :
    ∃ l1 l2, l = l1 ++ t :: l2 ∧ ∀ a, l.set i a = l1 ++ a :: l2 := by
  induction l generalizing i with
  | nil => simp at h
  | cons x xs ih =>
    cases i with
    | zero =>
      simp only [List.getElem?_cons_zero, Option.some.injEq] at h
      subst h
      exact ⟨[], xs, rfl, fun a => rfl⟩
    | succ i =>
      simp only [List.getElem?_cons_succ] at h
      obtain ⟨l1, l2, h1, h2⟩ := ih i h
      refine ⟨x :: l1, l2, by rw [h1]; rfl, fun a => ?_⟩
      simp [List.set_cons_succ, h2 a]

theorem nodup_shifted_range (c : Int) (k : Nat) :
    ((List.range k).map (fun j : Nat => c + (j : Int))).Nodup := by
  apply List.Nodup.map _ (List.nodup_range k)
  intro a b hab
  simp only at hab
  omega

theorem attach_inv_init (mixer : KmsBaseMixer) (es : List GstObject) :
    attach_inv mixer.port_count es (mixer, es.map AttachThread.start) := by
  have hf : (es.map AttachThread.start).filterMap thread_id = [] := by
    induction es with
    | nil => rfl
    | cons e es ih => simp [thread_id]
  refine ⟨?_, ?_, ?_, ?_⟩
  · simp [Function.comp_def, thread_end_point]
  · simp only [hf]
    exact List.Perm.refl _
  · intro _
    simp [hf]
  · intro e id hmem
    simp at hmem

/-- Every atomic section of every thread keeps `attach_inv`, as long as the
counter cannot wrap. -/
theorem attach_inv_step (env : Env) (c : Int) (es : List GstObject)
    (s : KmsBaseMixer × List AttachThread) (i : Nat)
    (hacc : ∀ e ∈ es, handle_port_accepts env e = true)
    (hlo : -2147483648 ≤ c) (hhi : c + es.length ≤ 2147483648)
    (h : attach_inv c es s) : attach_inv c es (schedule_step env s i) := by
  obtain ⟨ha, hb, hc, hd⟩ := h
  unfold schedule_step
  cases hi : s.2[i]? with
  | none => exact ⟨ha, hb, hc, hd⟩
  | some t =>
    obtain ⟨l1, l2, hl, hset⟩ := getElem?_split s.2 i t hi
    simp only
    rw [hset]
    have hlen : s.2.length = es.length := by
      rw [← ha, List.length_map]
    cases t with
    | done e id =>
      simp only [attach_section]
      rw [← hl]
      exact ⟨ha, hb, hc, hd⟩
    | start e =>
      have hmem : e ∈ es := by
        rw [← ha, hl]
        simp [thread_end_point]
      have hae := hacc e hmem
      simp only [attach_section, hae, if_true, kms_base_mixer_generate_port_id]
      have hids : s.2.filterMap thread_id = l1.filterMap thread_id ++ l2.filterMap thread_id := by
        rw [hl]
        simp [List.filterMap_append, List.filterMap_cons, thread_id]
      have hk : (s.2.filterMap thread_id).length < es.length := by
        rw [hids, List.length_append]
        have h1 := List.length_filterMap_le thread_id l1
        have h2 := List.length_filterMap_le thread_id l2
        have h3 : s.2.length = l1.length + (l2.length + 1) := by
          rw [hl]
          simp
        omega
      have hpc := hc hk
      have hnew : (l1 ++ AttachThread.has_id e s.1.port_count :: l2).filterMap thread_id =
          l1.filterMap thread_id ++ s.1.port_count :: l2.filterMap thread_id := by
        simp [List.filterMap_append, List.filterMap_cons, thread_id]
      refine ⟨?_, ?_, ?_, ?_⟩
      · rw [← ha, hl]
        simp [thread_end_point]
      · rw [hnew]
        have hlen2 : (l1.filterMap thread_id ++ s.1.port_count :: l2.filterMap thread_id).length =
            (s.2.filterMap thread_id).length + 1 := by
          rw [hids]
          simp only [List.length_append, List.length_cons]
          omega
        rw [hlen2, List.range_succ, List.map_append, List.map_singleton]
        refine List.perm_middle.trans ?_
        refine List.Perm.trans ?_ (List.perm_append_singleton _ _).symm
        rw [hpc, ← hids]
        exact List.Perm.cons _ hb
      · intro hlt
        rw [hnew] at hlt ⊢
        have hlen2 : (l1.filterMap thread_id ++ s.1.port_count :: l2.filterMap thread_id).length =
            (s.2.filterMap thread_id).length + 1 := by
          rw [hids]
          simp only [List.length_append, List.length_cons]
          omega
        rw [hlen2] at hlt ⊢
        simp only
        rw [hpc]
        have hw := wrap_gint_of_range (c + ((s.2.filterMap thread_id).length : Int) + 1)
          (by omega) (by omega)
        rw [hw]
        push_cast
        ring
      · intro e2 id2 hm
        simp only
        apply hd
        rw [hl]
        simp only [List.mem_append, List.mem_cons, reduceCtorEq, false_or] at hm ⊢
        rcases hm with hm | hm
        · exact Or.inl hm
        · exact Or.inr hm
    | has_id e id =>
      simp only [attach_section]
      have hids : s.2.filterMap thread_id =
          l1.filterMap thread_id ++ id :: l2.filterMap thread_id := by
        rw [hl]
        simp [List.filterMap_append, List.filterMap_cons, thread_id]
      have hnew : (l1 ++ AttachThread.done e id :: l2).filterMap thread_id =
          s.2.filterMap thread_id := by
        rw [hids]
        simp [List.filterMap_append, List.filterMap_cons, thread_id]
      have hnd : (s.2.filterMap thread_id).Nodup :=
        (hb.nodup_iff).mpr (nodup_shifted_range c _)
      rw [hids, List.nodup_middle, List.nodup_cons] at hnd
      refine ⟨?_, ?_, ?_, ?_⟩
      · rw [← ha, hl]
        simp [thread_end_point]
      · rw [hnew]
        exact hb
      · rw [hnew]
        exact hc
      · intro e2 id2 hm
        simp only
        simp only [List.mem_append, List.mem_cons, AttachThread.done.injEq] at hm
        have hother : ∀ l : List AttachThread, l.filterMap thread_id ⊆
            l1.filterMap thread_id ++ l2.filterMap thread_id →
            AttachThread.done e2 id2 ∈ l → AttachThread.done e2 id2 ∈ s.2 →
            g_hash_table_lookup
              (g_hash_table_insert s.1.ports id (kms_base_mixer_port_data_create e id)) id2 =
              some (kms_base_mixer_port_data_create e2 id2) := by
          intro l hsub hin hins
          have hidin : id2 ∈ l.filterMap thread_id :=
            List.mem_filterMap.mpr ⟨_, hin, rfl⟩
          have hne : id ≠ id2 := by
            intro heq
            apply hnd.1
            rw [heq]
            exact hsub hidin
          rw [lookup_insert_ne _ _ _ _ hne]
          exact hd e2 id2 hins
        rcases hm with hm | ⟨he, hid⟩ | hm
        · exact hother l1 (List.subset_append_left _ _) hm (by rw [hl]; simp [hm])
        · rw [he, hid]
          exact lookup_insert_self _ _ _
        · exact hother l2 (List.subset_append_right _ _) hm (by rw [hl]; simp [hm])

theorem attach_inv_run (env : Env) (c : Int) (es : List GstObject) (schedule : List Nat)
    (hacc : ∀ e ∈ es, handle_port_accepts env e = true)
    (hlo : -2147483648 ≤ c) (hhi : c + es.length ≤ 2147483648) :
    ∀ s, attach_inv c es s → attach_inv c es (run_schedule env s schedule) := by
  induction schedule with
  | nil =>
    intro s h
    exact h
  | cons i rest ih =>
    intro s h
    exact ih _ (attach_inv_step env c es s i hacc hlo hhi h)

theorem stage_section (env : Env) (mixer : KmsBaseMixer) (t : AttachThread) :
    min 2 (stage t + 1) ≤ stage (attach_section env mixer t).2 := by
  cases t with
  | start e =>
    simp only [attach_section]
    split_ifs <;> simp [stage]
  | has_id e id => simp [attach_section, stage]
  | done e id => simp [attach_section, stage]

theorem stage_done (t : AttachThread) (h : 2 ≤ stage t) : ∃ e id, t = AttachThread.done e id := by
  cases t with
  | start e => simp [stage] at h
  | has_id e id => simp [stage] at h
  | done e id => exact ⟨e, id, rfl⟩

theorem stage_at_step (env : Env) (s : KmsBaseMixer × List AttachThread) (j i : Nat) :
    stage_at s.2 i ≤ stage_at (schedule_step env s j).2 i ∧
    (j = i → min 2 (stage_at s.2 i + 1) ≤ stage_at (schedule_step env s j).2 i) := by
  unfold schedule_step
  cases hj : s.2[j]? with
  | none =>
    refine ⟨le_refl _, fun hji => ?_⟩
    subst hji
    simp [stage_at, hj]
  | some t =>
    have hlt : j < s.2.length := (List.getElem?_eq_some.mp hj).1
    have hsec := stage_section env s.1 t
    by_cases hji : j = i
    · subst hji
      have h1 : stage_at s.2 j = stage t := by simp [stage_at, hj]
      have h2 : stage_at (s.2.set j (attach_section env s.1 t).2) j =
          stage (attach_section env s.1 t).2 := by
        simp [stage_at, List.getElem?_set, hlt]
      simp only
      rw [h1, h2]
      refine ⟨?_, fun _ => hsec⟩
      have := Nat.min_le_right 2 (stage t + 1)
      cases t <;> simp [stage] at hsec ⊢ <;> omega
    · have h2 : stage_at (s.2.set j (attach_section env s.1 t).2) i = stage_at s.2 i := by
        simp [stage_at, List.getElem?_set, hji]
      simp only
      rw [h2]
      exact ⟨le_refl _, fun h => absurd h hji⟩

theorem stage_at_run (env : Env) (schedule : List Nat) (i : Nat) :
    ∀ s : KmsBaseMixer × List AttachThread,
      min 2 (stage_at s.2 i + schedule.count i) ≤
        stage_at (run_schedule env s schedule).2 i := by
  induction schedule with
  | nil =>
    intro s
    simp [run_schedule]
  | cons j rest ih =>
    intro s
    have hstep := stage_at_step env s j i
    have hrest := ih (schedule_step env s j)
    have hrun : run_schedule env s (j :: rest) = run_schedule env (schedule_step env s j) rest :=
      rfl
    rw [hrun, List.count_cons]
    by_cases hji : j = i
    · have h2 := hstep.2 hji
      simp only [hji, beq_self_eq_true, if_true]
      rw [hji] at h2 hrest
      omega
    · have hne : (j == i) = false := by simpa using hji
      simp only [hne, Bool.false_eq_true, if_false, Nat.add_zero]
      have h1 := hstep.1
      omega

theorem filterMap_all_done (l : List AttachThread)
    (h : ∀ t ∈ l, ∃ e id, t = AttachThread.done e id) :
    l.filterMap returned = l.filterMap thread_id ∧ (l.filterMap thread_id).length = l.length := by
  induction l with
  | nil => exact ⟨rfl, rfl⟩
  | cons t ts ih =>
    obtain ⟨e, id, ht⟩ := h t (List.mem_cons_self _ _)
    obtain ⟨i1, i2⟩ := ih (fun u hu => h u (List.mem_cons_of_mem _ hu))
    subst ht
    simp [List.filterMap_cons, returned, thread_id, i1, i2]

/-- The counter after `n` successive attach calls of the end point `1`. -/
theorem run_replicate_port_count (n : Nat) :
    ∀ m : KmsBaseMixer, -2147483648 ≤ m.port_count → m.port_count < 2147483648 →
      (run env0 m (List.replicate n (Call.handle_port 1))).port_count =
        wrap_gint (m.port_count + n) := by
  induction n with
  | zero =>
    intro m h1 h2
    simpa [run] using (wrap_gint_of_range _ h1 h2).symm
  | succ n ih =>
    intro m h1 h2
    have hacc : handle_port_accepts env0 1 = true := by decide
    have hr : returned_id env0 m (Call.handle_port 1) = some m.port_count := by
      simp [returned_id, hacc, handle_port_accepted env0 m 1 hacc]
    have hs := step_port_count env0 m (Call.handle_port 1)
    rw [hr] at hs
    simp only at hs
    have hrange := wrap_gint_range (m.port_count + 1)
    have hrun : run env0 m (List.replicate (n + 1) (Call.handle_port 1)) =
        run env0 (step env0 m (Call.handle_port 1)) (List.replicate n (Call.handle_port 1)) := by
      rw [List.replicate_succ]
      rfl
    rw [hrun, ih _ (by rw [hs]; exact hrange.1) (by rw [hs]; exact hrange.2), hs,
      wrap_gint_succ]
    push_cast
    rfl

/-- Two threads on a mixer whose counter stands at `2^31 - 1`. -/
theorem two_threads_at_max (m : KmsBaseMixer) (hc : m.port_count = 2147483647) :
    (run_schedule env0 (m, threads0.map AttachThread.start) schedule0).2 =
      [AttachThread.done 1 2147483647, AttachThread.done 1 (-2147483648)] := by
  have hacc : handle_port_accepts env0 1 = true := by decide
  have hw : wrap_gint 2147483648 = -2147483648 := by decide
  simp [run_schedule, schedule_step, schedule0, threads0, attach_section, hacc,
    kms_base_mixer_generate_port_id, hc, hw]

theorem port_count_at_max (n : Nat) (hn : wrap_gint (0 + (n : Int)) = 2147483647) :
    (run env0 (kms_base_mixer_init []) (List.replicate n (Call.handle_port 1))).port_count =
      2147483647 := by
  rw [run_replicate_port_count n (kms_base_mixer_init []) (by decide) (by decide)]
  exact hn

/-- C8 (as stated, refuted): the mixer that has handled `2^31 - 1` attach calls
has its counter at `2^31 - 1`; from there two threads attaching a valid end point
return the ids `2^31 - 1` and `-2^31`, which are not the values `c` and `c + 1`
for the counter `c = 2^31 - 1` they started from. -/
theorem concurrent_attach_wrap_counterexample :
    (run env0 (kms_base_mixer_init []) (List.replicate 2147483647 (Call.handle_port 1))).port_count =
      2147483647 ∧
    (run_schedule env0
        (run env0 (kms_base_mixer_init []) (List.replicate 2147483647 (Call.handle_port 1)),
          threads0.map AttachThread.start) schedule0).2 =
      [AttachThread.done 1 2147483647, AttachThread.done 1 (-2147483648)] ∧
    ¬ List.Perm [(2147483647 : Int), -2147483648]
      ((List.range 2).map (fun k : Nat => (2147483647 : Int) + (k : Int))) :=
  ⟨port_count_at_max 2147483647 (by decide),
    two_threads_at_max _ (port_count_at_max 2147483647 (by decide)), by decide⟩

/-- C8 (amended): let `N` threads attach valid end points on a mixer whose
counter `c` is a `gint` value with `c + N ≤ 2^31`, their two locked sections
(the generation of the id, the insertion into the registry) interleaving in any
order in which every thread runs both.  Then every thread returns; the ids
returned are, up to their order, exactly `c, c + 1, …, c + N - 1`, hence
pairwise distinct and without gap; and the registry holds, under the id that a
thread returned, the record of that thread's end point. -/
theorem concurrent_attach_ids (env : Env) (mixer : KmsBaseMixer) (es : List GstObject)
    (schedule : List Nat)
    (hacc : ∀ e ∈ es, handle_port_accepts env e = true)
    (hlo : -2147483648 ≤ mixer.port_count)
    (hhi : mixer.port_count + es.length ≤ 2147483648)
    (hsched : ∀ i, i < es.length → 2 ≤ schedule.count i) :
    (run_schedule env (mixer, es.map AttachThread.start) schedule).2.map thread_end_point = es ∧
    (∀ t ∈ (run_schedule env (mixer, es.map AttachThread.start) schedule).2,
      ∃ e id, t = AttachThread.done e id ∧
        g_hash_table_lookup
          (run_schedule env (mixer, es.map AttachThread.start) schedule).1.ports id =
          some (kms_base_mixer_port_data_create e id)) ∧
    List.Perm
      ((run_schedule env (mixer, es.map AttachThread.start) schedule).2.filterMap returned)
      ((List.range es.length).map (fun k : Nat => mixer.port_count + (k : Int))) ∧
    ((run_schedule env (mixer, es.map AttachThread.start) schedule).2.filterMap
      returned).Nodup := by
  obtain ⟨ha, hb, _, hd⟩ := attach_inv_run env mixer.port_count es schedule hacc hlo hhi _
    (attach_inv_init mixer es)
  have hlen : (run_schedule env (mixer, es.map AttachThread.start) schedule).2.length =
      es.length := by
    have := congrArg List.length ha
    simpa using this
  have hdone : ∀ t ∈ (run_schedule env (mixer, es.map AttachThread.start) schedule).2,
      ∃ e id, t = AttachThread.done e id := by
    intro t ht
    obtain ⟨n, hn⟩ := List.mem_iff_getElem?.mp ht
    have hlt : n < es.length := by
      rw [← hlen]
      exact (List.getElem?_eq_some.mp hn).1
    have hst := stage_at_run env schedule n (mixer, es.map AttachThread.start)
    have h2 := hsched n hlt
    have hfin : stage_at (run_schedule env (mixer, es.map AttachThread.start) schedule).2 n =
        stage t := by
      simp [stage_at, hn]
    rw [hfin] at hst
    apply stage_done
    omega
  obtain ⟨f1, f2⟩ := filterMap_all_done _ hdone
  have hperm : List.Perm
      ((run_schedule env (mixer, es.map AttachThread.start) schedule).2.filterMap returned)
      ((List.range es.length).map (fun k : Nat => mixer.port_count + (k : Int))) := by
    rw [f1]
    rw [f2, hlen] at hb
    exact hb
  refine ⟨ha, ?_, hperm, (hperm.nodup_iff).mpr (nodup_shifted_range _ _)⟩
  intro t ht
  obtain ⟨e, id, hte⟩ := hdone t ht
  subst hte
  exact ⟨e, id, rfl, hd e id ht⟩

/-- In the concrete pipeline, with port `0` attached already, two threads whose
sections interleave as `0, 1, 1, 0` return the ids `2` and `1`, and the ids
returned are the values `1` and `2` that follow the counter. -/
theorem concurrent_attach_ids_witness :
    (run_schedule env0 (mixer0, threads0.map AttachThread.start) schedule0).2 =
      [AttachThread.done 1 1, AttachThread.done 1 2] ∧
    List.Perm
      ((run_schedule env0 (mixer0, threads0.map AttachThread.start) schedule0).2.filterMap
        returned)
      ((List.range threads0.length).map (fun k : Nat => mixer0.port_count + (k : Int))) :=
  ⟨by decide,
    (concurrent_attach_ids env0 mixer0 threads0 schedule0 (by decide) (by decide) (by decide)
      (by decide)).2.2.1⟩

end Kms
